import Mathlib

/-
Shallow embedding of the indicator repository routes
(services/web/project/api/routes/indicator.py and intel_reference.py):
the data model, the filter query planner of read_indicators, the compiled
count and projection queries, and the create/update flows, together with
proofs of the specification claims about them.
-/

namespace Intelooper

/-! ## Data model

Rows of the relational store as the routes use them.  Lookup entities
(IndicatorType, IndicatorConfidence, IndicatorImpact, IndicatorStatus,
Tag, Campaign, IntelSource) are all identified by an id and carry one
string attribute (value, or name for Campaign). -/

/-- A lookup-entity row: id plus its unique value (Campaign's name plays
the role of value). -/
structure Lookup where
  id : Nat
  value : String
deriving DecidableEq

/-- A User row: id, username, apikey and the active flag. -/
structure UserRow where
  id : Nat
  username : String
  apikey : String
  active : Bool
deriving DecidableEq

/-- An IntelReference row: reference string, owning IntelSource and the
attributed user. -/
structure RefRow where
  id : Nat
  reference : String
  intel_source_id : Nat
  user_id : Nat
deriving DecidableEq

/-- Timestamps; dateutil datetimes are modelled as integers under their
chronological order. -/
abbrev Date := Int

/-- Model of datetime.date.max, the sentinel an unparseable created_after
or modified_after collapses to. -/
def dateMax : Date := 2932896

/-- Model of datetime.date.min, the sentinel an unparseable created_before
or modified_before collapses to. -/
def dateMin : Date := -2932896

/-- An Indicator row with its scalar attributes and foreign keys. -/
structure IndicatorRow where
  id : Nat
  value : String
  case_sensitive : Bool
  substring : Bool
  type_id : Nat
  confidence_id : Nat
  impact_id : Nat
  status_id : Nat
  user_id : Nat
  created_time : Date
  modified_time : Date
deriving DecidableEq

/-- The relational store: entity tables plus the three many-to-many
association tables (pairs of indicator id and related id).  nextId models
the store's id autoincrement used when a route stages a new row. -/
structure DB where
  indicators : List IndicatorRow
  indicator_types : List Lookup
  indicator_confidences : List Lookup
  indicator_impacts : List Lookup
  indicator_statuses : List Lookup
  tags : List Lookup
  campaigns : List Lookup
  intel_sources : List Lookup
  intel_references : List RefRow
  users : List UserRow
  indicator_campaign_association : List (Nat × Nat)
  indicator_reference_association : List (Nat × Nat)
  indicator_tag_association : List (Nat × Nat)
  nextId : Nat
deriving DecidableEq

/-! ## String helpers

Character-level translations of the Python string operations used by
read_indicators: value.split(','), the '[OR]' in value test, and
value.replace('[OR]', ''). -/

/-- Helper for splitComma: walks the characters accumulating the current
piece (reversed). -/
def splitCommaAux : List Char → List Char → List String
  | [], acc => [String.mk acc.reverse]
  | c :: cs, acc =>
    if c = ',' then String.mk acc.reverse :: splitCommaAux cs []
    else splitCommaAux cs (c :: acc)

/-- Python value.split(','): always returns at least one piece. -/
def splitComma (s : String) : List String := splitCommaAux s.data []

/-- Helper for hasOrMarker over the character list. -/
def hasOrMarkerChars : List Char → Bool
  | '[' :: 'O' :: 'R' :: ']' :: _ => true
  | _ :: cs => hasOrMarkerChars cs
  | [] => false

/-- Python "[OR]" in value. -/
def hasOrMarker (s : String) : Bool := hasOrMarkerChars s.data

/-- Helper for removeOrMarker: drops each non-overlapping occurrence of
the marker, scanning left to right. -/
def removeOrMarkerChars : List Char → List Char
  | '[' :: 'O' :: 'R' :: ']' :: cs => removeOrMarkerChars cs
  | c :: cs => c :: removeOrMarkerChars cs
  | [] => []

/-- Python value.replace('[OR]', ''). -/
def removeOrMarker (s : String) : String := String.mk (removeOrMarkerChars s.data)

/-! ## Request arguments and external parsers -/

/-- The recognized query parameters of GET /indicators.  A some value
means the parameter is present in request.args; flag parameters carry
only their presence.  Unrecognized parameters never reach the planner. -/
structure Args where
  case_sensitive : Option String := none
  confidence : Option String := none
  count : Bool := false
  created_after : Option String := none
  created_before : Option String := none
  exact_value : Option String := none
  impact : Option String := none
  modified_after : Option String := none
  modified_before : Option String := none
  no_campaigns : Bool := false
  no_references : Bool := false
  no_tags : Bool := false
  not_sources : Option String := none
  not_tags : Option String := none
  not_users : Option String := none
  reference : Option String := none
  sources : Option String := none
  status : Option String := none
  substring : Option String := none
  tags : Option String := none
  type : Option String := none
  types : Option String := none
  user : Option String := none
  users : Option String := none
  value : Option String := none
deriving DecidableEq

/-- External parsing collaborators: dateutil.parser.parse modelled as a
total function to Option Date (none when it raises ValueError or
OverflowError), and project.api.helpers.parse_boolean with default None
modelled as a function to Option Bool (that helper module is outside the
sources; no claim depends on its exact behavior). -/
structure Parsers where
  parseDate : String → Option Date
  parseBool : String → Option Bool

/-! ## The filter query planner

The deep embedding of the predicate and join plan that read_indicators
builds before compiling a query. -/

/-- The equality predicates that appear inside or_ disjunction lists. -/
inductive EqPred
  | tagEq (s : String)
  | sourceEq (s : String)
  | userEq (s : String)
  | typeEq (s : String)
deriving DecidableEq

/-- One WHERE predicate as read_indicators appends them. -/
inductive Pred
  | caseSensitiveIs (b : Option Bool)
  | substringIs (b : Option Bool)
  | confidenceEq (s : String)
  | impactEq (s : String)
  | statusEq (s : String)
  | valueEq (s : String)
  | valueLike (s : String)
  | createdAfter (d : Date)
  | createdBefore (d : Date)
  | modifiedAfter (d : Date)
  | modifiedBefore (d : Date)
  | noCampaigns
  | noReferences
  | noTags
  | notTagAny (s : String)
  | refAnyEq (s : String)
  | sourceNe (s : String)
  | userNe (s : String)
  | eqP (p : EqPred)
  | orP (ps : List EqPred)
deriving DecidableEq

/-- One HAVING atom: func.sum(column == value) > 0 within a group. -/
inductive HavAtom
  | tagSumPos (s : String)
  | sourceSumPos (s : String)
  | userSumPos (s : String)
deriving DecidableEq

/-- One HAVING predicate as appended: an and_ of per-value sum atoms. -/
inductive Hav
  | andH (hs : List HavAtom)
deriving DecidableEq

/-- The tables the planner can join beyond the base Indicator table. -/
inductive JTable
  | indicatorType
  | indicatorConfidence
  | indicatorImpact
  | indicatorStatus
  | campaignAssocT
  | tagAssocT
  | tagT
  | refAssocT
  | intelReferenceT
  | intelSourceT
  | userT
deriving DecidableEq

/-- One entry of the join plan: db.join or db.outerjoin of a table. -/
inductive JoinItem
  | inner (t : JTable)
  | outer (t : JTable)
deriving DecidableEq

/-- The planner state threaded through the filter handlers: the join
plan, the WHERE list, the HAVING list, the needs-group-by flag, and the
two joined-set bookkeeping sets (inner and outer joins are tracked
separately, exactly as in the source). -/
structure PlanState where
  joins : List JoinItem
  filters : List Pred
  groupby : Bool
  having : List Hav
  alreadyJoined : List JTable
  alreadyOuterjoined : List JTable
deriving DecidableEq

/-- The initial state: Indicator inner-joined to IndicatorType, with
IndicatorType recorded in the joined set. -/
def initSt : PlanState :=
  { joins := [JoinItem.inner JTable.indicatorType],
    filters := [],
    groupby := false,
    having := [],
    alreadyJoined := [JTable.indicatorType],
    alreadyOuterjoined := [] }

/-- Append one WHERE predicate. -/
def addFilter (st : PlanState) (p : Pred) : PlanState :=
  { st with filters := st.filters ++ [p] }

/-- Append one HAVING predicate. -/
def addHaving (st : PlanState) (h : Hav) : PlanState :=
  { st with having := st.having ++ [h] }

/-- The repeated source pattern: if the table is not in already_joined,
inner-join it and record it. -/
def joinInner (t : JTable) (st : PlanState) : PlanState :=
  if t ∈ st.alreadyJoined then st
  else { st with joins := st.joins ++ [JoinItem.inner t]
                 alreadyJoined := t :: st.alreadyJoined }

/-- The repeated source pattern: if the table is not in
already_outerjoined, outer-join it and record it. -/
def joinOuter (t : JTable) (st : PlanState) : PlanState :=
  if t ∈ st.alreadyOuterjoined then st
  else { st with joins := st.joins ++ [JoinItem.outer t]
                 alreadyOuterjoined := t :: st.alreadyOuterjoined }

/-- case_sensitive filter handler. -/
def hCaseSensitive (P : Parsers) (args : Args) (st : PlanState) : PlanState :=
  match args.case_sensitive with
  | none => st
  | some v => addFilter st (Pred.caseSensitiveIs (P.parseBool v))

/-- confidence filter handler. -/
def hConfidence (args : Args) (st : PlanState) : PlanState :=
  match args.confidence with
  | none => st
  | some v => addFilter (joinInner JTable.indicatorConfidence st) (Pred.confidenceEq v)

/-- created_after filter handler: an unparseable date collapses to
datetime.date.max and planning proceeds. -/
def hCreatedAfter (P : Parsers) (args : Args) (st : PlanState) : PlanState :=
  match args.created_after with
  | none => st
  | some v => addFilter st (Pred.createdAfter ((P.parseDate v).getD dateMax))

/-- created_before filter handler: an unparseable date collapses to
datetime.date.min. -/
def hCreatedBefore (P : Parsers) (args : Args) (st : PlanState) : PlanState :=
  match args.created_before with
  | none => st
  | some v => addFilter st (Pred.createdBefore ((P.parseDate v).getD dateMin))

/-- exact_value filter handler. -/
def hExactValue (args : Args) (st : PlanState) : PlanState :=
  match args.exact_value with
  | none => st
  | some v => addFilter st (Pred.valueEq v)

/-- impact filter handler. -/
def hImpact (args : Args) (st : PlanState) : PlanState :=
  match args.impact with
  | none => st
  | some v => addFilter (joinInner JTable.indicatorImpact st) (Pred.impactEq v)

/-- modified_after filter handler. -/
def hModifiedAfter (P : Parsers) (args : Args) (st : PlanState) : PlanState :=
  match args.modified_after with
  | none => st
  | some v => addFilter st (Pred.modifiedAfter ((P.parseDate v).getD dateMax))

/-- modified_before filter handler. -/
def hModifiedBefore (P : Parsers) (args : Args) (st : PlanState) : PlanState :=
  match args.modified_before with
  | none => st
  | some v => addFilter st (Pred.modifiedBefore ((P.parseDate v).getD dateMin))

/-- no_campaigns flag handler: outer join preserving zero-campaign
indicators, then a negated existence predicate. -/
def hNoCampaigns (args : Args) (st : PlanState) : PlanState :=
  if args.no_campaigns then
    addFilter (joinOuter JTable.campaignAssocT st) Pred.noCampaigns
  else st

/-- no_references flag handler. -/
def hNoReferences (args : Args) (st : PlanState) : PlanState :=
  if args.no_references then
    addFilter (joinOuter JTable.refAssocT st) Pred.noReferences
  else st

/-- no_tags flag handler. -/
def hNoTags (args : Args) (st : PlanState) : PlanState :=
  if args.no_tags then
    addFilter (joinOuter JTable.tagAssocT st) Pred.noTags
  else st

/-- not_sources handler: inner joins through the reference association to
IntelSource, forces group-by, one inequality WHERE clause per value. -/
def hNotSources (args : Args) (st : PlanState) : PlanState :=
  match args.not_sources with
  | none => st
  | some v =>
    let st := joinInner JTable.refAssocT st
    let st := joinInner JTable.intelReferenceT st
    let st := joinInner JTable.intelSourceT st
    let st := { st with groupby := true }
    (splitComma v).foldl (fun s ns => addFilter s (Pred.sourceNe ns)) st

/-- not_tags handler: outer join to the tag association, forces group-by,
one negated existence predicate per excluded tag. -/
def hNotTags (args : Args) (st : PlanState) : PlanState :=
  match args.not_tags with
  | none => st
  | some v =>
    let st := joinOuter JTable.tagAssocT st
    let st := { st with groupby := true }
    (splitComma v).foldl (fun s nt => addFilter s (Pred.notTagAny nt)) st

/-- not_users handler: inner joins through the reference association to
User, forces group-by, one inequality WHERE clause per value. -/
def hNotUsers (args : Args) (st : PlanState) : PlanState :=
  match args.not_users with
  | none => st
  | some v =>
    let st := joinInner JTable.refAssocT st
    let st := joinInner JTable.intelReferenceT st
    let st := joinInner JTable.userT st
    let st := { st with groupby := true }
    (splitComma v).foldl (fun s nu => addFilter s (Pred.userNe nu)) st

/-- reference handler: inner join to the reference association, group-by,
one correlated existence predicate. -/
def hReference (args : Args) (st : PlanState) : PlanState :=
  match args.reference with
  | none => st
  | some v =>
    let st := joinInner JTable.refAssocT st
    let st := { st with groupby := true }
    addFilter st (Pred.refAnyEq v)

/-- sources handler: inner joins to IntelSource, group-by, then the
AND/OR list compilation over the comma-separated values. -/
def hSources (args : Args) (st : PlanState) : PlanState :=
  match args.sources with
  | none => st
  | some v =>
    let st := joinInner JTable.refAssocT st
    let st := joinInner JTable.intelReferenceT st
    let st := joinInner JTable.intelSourceT st
    let st := { st with groupby := true }
    let orMode := hasOrMarker v
    let v := if orMode then removeOrMarker v else v
    let vals := splitComma v
    if vals.length = 1 then addFilter st (Pred.eqP (EqPred.sourceEq (vals.headD "")))
    else if 1 < vals.length then
      if orMode then addFilter st (Pred.orP (vals.map EqPred.sourceEq))
      else addHaving st (Hav.andH (vals.map HavAtom.sourceSumPos))
    else st

/-- status filter handler. -/
def hStatus (args : Args) (st : PlanState) : PlanState :=
  match args.status with
  | none => st
  | some v => addFilter (joinInner JTable.indicatorStatus st) (Pred.statusEq v)

/-- substring filter handler. -/
def hSubstring (P : Parsers) (args : Args) (st : PlanState) : PlanState :=
  match args.substring with
  | none => st
  | some v => addFilter st (Pred.substringIs (P.parseBool v))

/-- tags handler: inner joins to the tag association and Tag, group-by,
then the AND/OR list compilation. -/
def hTags (args : Args) (st : PlanState) : PlanState :=
  match args.tags with
  | none => st
  | some v =>
    let st := joinInner JTable.tagAssocT st
    let st := joinInner JTable.tagT st
    let st := { st with groupby := true }
    let orMode := hasOrMarker v
    let v := if orMode then removeOrMarker v else v
    let vals := splitComma v
    if vals.length = 1 then addFilter st (Pred.eqP (EqPred.tagEq (vals.headD "")))
    else if 1 < vals.length then
      if orMode then addFilter st (Pred.orP (vals.map EqPred.tagEq))
      else addHaving st (Hav.andH (vals.map HavAtom.tagSumPos))
    else st

/-- type filter handler. -/
def hType (args : Args) (st : PlanState) : PlanState :=
  match args.type with
  | none => st
  | some v => addFilter st (Pred.eqP (EqPred.typeEq v))

/-- types handler: the value is split on commas as-is, with no OR-marker
handling; multi-value lists always compile to a disjunction. -/
def hTypes (args : Args) (st : PlanState) : PlanState :=
  match args.types with
  | none => st
  | some v =>
    let vals := splitComma v
    if vals.length = 1 then addFilter st (Pred.eqP (EqPred.typeEq (vals.headD "")))
    else if 1 < vals.length then addFilter st (Pred.orP (vals.map EqPred.typeEq))
    else st

/-- user handler: inner joins through the reference association to User,
group-by, one equality WHERE clause. -/
def hUser (args : Args) (st : PlanState) : PlanState :=
  match args.user with
  | none => st
  | some v =>
    let st := joinInner JTable.refAssocT st
    let st := joinInner JTable.intelReferenceT st
    let st := joinInner JTable.userT st
    let st := { st with groupby := true }
    addFilter st (Pred.eqP (EqPred.userEq v))

/-- users handler: inner joins to User, group-by, then the AND/OR list
compilation. -/
def hUsers (args : Args) (st : PlanState) : PlanState :=
  match args.users with
  | none => st
  | some v =>
    let st := joinInner JTable.refAssocT st
    let st := joinInner JTable.intelReferenceT st
    let st := joinInner JTable.userT st
    let st := { st with groupby := true }
    let orMode := hasOrMarker v
    let v := if orMode then removeOrMarker v else v
    let vals := splitComma v
    if vals.length = 1 then addFilter st (Pred.eqP (EqPred.userEq (vals.headD "")))
    else if 1 < vals.length then
      if orMode then addFilter st (Pred.orP (vals.map EqPred.userEq))
      else addHaving st (Hav.andH (vals.map HavAtom.userSumPos))
    else st

/-- value handler: wildcard substring search on the indicator value. -/
def hValue (args : Args) (st : PlanState) : PlanState :=
  match args.value with
  | none => st
  | some v => addFilter st (Pred.valueLike v)

/-- The full planner of read_indicators: the filter handlers applied in
source order starting from the initial Indicator-to-Type join.  It is a
total function: no filter value can make it fail. -/
def buildSt (P : Parsers) (args : Args) : PlanState :=
  let st := initSt
  let st := hCaseSensitive P args st
  let st := hConfidence args st
  let st := hCreatedAfter P args st
  let st := hCreatedBefore P args st
  let st := hExactValue args st
  let st := hImpact args st
  let st := hModifiedAfter P args st
  let st := hModifiedBefore P args st
  let st := hNoCampaigns args st
  let st := hNoReferences args st
  let st := hNoTags args st
  let st := hNotSources args st
  let st := hNotTags args st
  let st := hNotUsers args st
  let st := hReference args st
  let st := hSources args st
  let st := hStatus args st
  let st := hSubstring P args st
  let st := hTags args st
  let st := hType args st
  let st := hTypes args st
  let st := hUser args st
  let st := hUsers args st
  let st := hValue args st
  st

/-! ## Query evaluation

List-based semantics of the compiled SELECT: a row of the join carries
the base Indicator columns plus the columns of each joined table, none
standing for SQL NULL (from an outer join with no match). -/

/-- One row of the evaluated join. -/
structure Row where
  ind : IndicatorRow
  typ : Option Lookup := none
  conf : Option Lookup := none
  imp : Option Lookup := none
  stat : Option Lookup := none
  campA : Option (Nat × Nat) := none
  tagA : Option (Nat × Nat) := none
  tag : Option Lookup := none
  refA : Option (Nat × Nat) := none
  ref : Option RefRow := none
  src : Option Lookup := none
  usr : Option UserRow := none
deriving DecidableEq

/-- The matches of one table against a row, under the join's ON clause
(explicit in the source for entity tables, foreign-key-implied for the
association tables). -/
def innerRows (db : DB) (t : JTable) (r : Row) : List Row :=
  match t with
  | JTable.indicatorType =>
    (db.indicator_types.filter (fun x => x.id == r.ind.type_id)).map
      (fun x => { r with typ := some x })
  | JTable.indicatorConfidence =>
    (db.indicator_confidences.filter (fun x => x.id == r.ind.confidence_id)).map
      (fun x => { r with conf := some x })
  | JTable.indicatorImpact =>
    (db.indicator_impacts.filter (fun x => x.id == r.ind.impact_id)).map
      (fun x => { r with imp := some x })
  | JTable.indicatorStatus =>
    (db.indicator_statuses.filter (fun x => x.id == r.ind.status_id)).map
      (fun x => { r with stat := some x })
  | JTable.campaignAssocT =>
    (db.indicator_campaign_association.filter (fun a => a.1 == r.ind.id)).map
      (fun a => { r with campA := some a })
  | JTable.tagAssocT =>
    (db.indicator_tag_association.filter (fun a => a.1 == r.ind.id)).map
      (fun a => { r with tagA := some a })
  | JTable.tagT =>
    match r.tagA with
    | some a => (db.tags.filter (fun x => x.id == a.2)).map (fun x => { r with tag := some x })
    | none => []
  | JTable.refAssocT =>
    (db.indicator_reference_association.filter (fun a => a.1 == r.ind.id)).map
      (fun a => { r with refA := some a })
  | JTable.intelReferenceT =>
    match r.refA with
    | some a =>
      (db.intel_references.filter (fun x => x.id == a.2)).map (fun x => { r with ref := some x })
    | none => []
  | JTable.intelSourceT =>
    match r.ref with
    | some rf =>
      (db.intel_sources.filter (fun x => x.id == rf.intel_source_id)).map
        (fun x => { r with src := some x })
    | none => []
  | JTable.userT =>
    match r.ref with
    | some rf => (db.users.filter (fun x => x.id == rf.user_id)).map (fun x => { r with usr := some x })
    | none => []

/-- One join of the plan: inner join keeps matching combinations, outer
join preserves an unmatched left row with NULL right columns. -/
def joinStep (db : DB) (rows : List Row) : JoinItem → List Row
  | JoinItem.inner t => rows.flatMap (fun r => innerRows db t r)
  | JoinItem.outer t =>
    rows.flatMap (fun r => let m := innerRows db t r; if m.isEmpty then [r] else m)

/-- Evaluate a join plan over the store, starting from the Indicator
table. -/
def evalJoins (db : DB) (items : List JoinItem) : List Row :=
  items.foldl (joinStep db) (db.indicators.map (fun i => { ind := i }))

/-- Correlated existence of any related tag (Indicator.tags.any()). -/
def hasAnyTagB (db : DB) (k : Nat) : Bool :=
  db.indicator_tag_association.any
    (fun a => a.1 == k && db.tags.any (fun t => t.id == a.2))

/-- Correlated existence of a related tag with the given value
(Indicator.tags.any(value=s)). -/
def hasTagB (db : DB) (k : Nat) (s : String) : Bool :=
  db.indicator_tag_association.any
    (fun a => a.1 == k && db.tags.any (fun t => t.id == a.2 && t.value == s))

/-- Correlated existence of any related campaign. -/
def hasAnyCampaignB (db : DB) (k : Nat) : Bool :=
  db.indicator_campaign_association.any
    (fun a => a.1 == k && db.campaigns.any (fun c => c.id == a.2))

/-- Correlated existence of any related intel reference. -/
def hasAnyReferenceB (db : DB) (k : Nat) : Bool :=
  db.indicator_reference_association.any
    (fun a => a.1 == k && db.intel_references.any (fun rf => rf.id == a.2))

/-- Correlated existence of a related intel reference with the given
reference value (Indicator.references.any(reference == s)). -/
def hasRefValueB (db : DB) (k : Nat) (s : String) : Bool :=
  db.indicator_reference_association.any
    (fun a => a.1 == k &&
      db.intel_references.any (fun rf => rf.id == a.2 && rf.reference == s))

/-- Leading-match test over characters. -/
def charsStartWith : List Char → List Char → Bool
  | [], _ => true
  | _ :: _, [] => false
  | a :: as, b :: bs => a == b && charsStartWith as bs

/-- Python "needle in haystack" over characters, for LIKE percent
wildcard search. -/
def charsContain (needle : List Char) : List Char → Bool
  | [] => needle.isEmpty
  | c :: cs => charsStartWith needle (c :: cs) || charsContain needle cs

/-- Evaluation of one equality predicate on a row; a NULL column never
compares equal. -/
def evalEqPred (r : Row) : EqPred → Bool
  | EqPred.tagEq s => match r.tag with | some t => t.value == s | none => false
  | EqPred.sourceEq s => match r.src with | some x => x.value == s | none => false
  | EqPred.userEq s => match r.usr with | some u => u.username == s | none => false
  | EqPred.typeEq s => match r.typ with | some t => t.value == s | none => false

/-- Evaluation of one WHERE predicate on a row of the join; SQL NULL
comparisons are never true. -/
def evalPred (db : DB) (r : Row) : Pred → Bool
  | Pred.caseSensitiveIs b => match b with | some v => r.ind.case_sensitive == v | none => false
  | Pred.substringIs b => match b with | some v => r.ind.substring == v | none => false
  | Pred.confidenceEq s => match r.conf with | some c => c.value == s | none => false
  | Pred.impactEq s => match r.imp with | some c => c.value == s | none => false
  | Pred.statusEq s => match r.stat with | some c => c.value == s | none => false
  | Pred.valueEq s => r.ind.value == s
  | Pred.valueLike s => charsContain s.data r.ind.value.data
  | Pred.createdAfter d => decide (d < r.ind.created_time)
  | Pred.createdBefore d => decide (r.ind.created_time < d)
  | Pred.modifiedAfter d => decide (d < r.ind.modified_time)
  | Pred.modifiedBefore d => decide (r.ind.modified_time < d)
  | Pred.noCampaigns => !hasAnyCampaignB db r.ind.id
  | Pred.noReferences => !hasAnyReferenceB db r.ind.id
  | Pred.noTags => !hasAnyTagB db r.ind.id
  | Pred.notTagAny s => !hasTagB db r.ind.id s
  | Pred.refAnyEq s => hasRefValueB db r.ind.id s
  | Pred.sourceNe s => match r.src with | some x => decide (x.value ≠ s) | none => false
  | Pred.userNe s => match r.usr with | some u => decide (u.username ≠ s) | none => false
  | Pred.eqP p => evalEqPred r p
  | Pred.orP ps => ps.any (evalEqPred r)

/-- Evaluation of one HAVING atom over a group: func.sum of a boolean
column counts the rows where it is true, so the atom holds when some row
of the group matches the value. -/
def evalHavAtom (grp : List Row) : HavAtom → Bool
  | HavAtom.tagSumPos s =>
    decide (0 < (grp.filter (fun r => evalEqPred r (EqPred.tagEq s))).length)
  | HavAtom.sourceSumPos s =>
    decide (0 < (grp.filter (fun r => evalEqPred r (EqPred.sourceEq s))).length)
  | HavAtom.userSumPos s =>
    decide (0 < (grp.filter (fun r => evalEqPred r (EqPred.userEq s))).length)

/-- Evaluation of one HAVING predicate over a group. -/
def evalHav (grp : List Row) : Hav → Bool
  | Hav.andH hs => hs.all (evalHavAtom grp)

/-- The rows of the evaluated join that pass every WHERE predicate. -/
def filteredRows (db : DB) (st : PlanState) : List Row :=
  (evalJoins db st.joins).filter (fun r => st.filters.all (evalPred db r))

/-- The indicator id a row is grouped under. -/
def rowId (r : Row) : Nat := r.ind.id

/-- The distinct indicator ids of a row list (the GROUP BY keys). -/
def groupIds (rows : List Row) : List Nat := (rows.map rowId).dedup

/-- The rows of one group. -/
def groupRows (rows : List Row) (k : Nat) : List Row := rows.filter (fun r => rowId r == k)

/-- The group keys that pass every HAVING predicate. -/
def passingIds (db : DB) (st : PlanState) : List Nat :=
  (groupIds (filteredRows db st)).filter
    (fun k => st.having.all (evalHav (groupRows (filteredRows db st) k)))

/-- Count-mode compilation: with group-by, the grouped id-selecting query
runs as a subquery and its groups are counted; without it, COUNT(*) runs
directly over the filtered join rows. -/
def countResult (db : DB) (st : PlanState) : Nat :=
  if st.groupby then (passingIds db st).length
  else (filteredRows db st).length

/-- The projected columns of a row: indicator id, type value, indicator
value. -/
def projectRow (r : Row) : Nat × String × String :=
  (r.ind.id, ((r.typ.map Lookup.value).getD ""), r.ind.value)

/-- The output row of one group: the projection of its first row (all
rows of a group agree on the projected columns in a well-formed store). -/
def groupOutput (rows : List Row) (k : Nat) : Nat × String × String :=
  match (groupRows rows k).head? with
  | some r => projectRow r
  | none => (k, "", "")

/-- Insert an output row into a list sorted by indicator id. -/
def insertByFst (x : Nat × String × String) :
    List (Nat × String × String) → List (Nat × String × String)
  | [] => [x]
  | y :: ys => if x.1 ≤ y.1 then x :: y :: ys else y :: insertByFst x ys

/-- ORDER BY Indicator.id over the output rows. -/
def sortByFst : List (Nat × String × String) → List (Nat × String × String)
  | [] => []
  | x :: xs => insertByFst x (sortByFst xs)

/-- Projection-mode compilation: SELECT id, type value, indicator value
over the filtered join, grouped when the plan requires it, ordered by
indicator id. -/
def projectionResult (db : DB) (st : PlanState) : List (Nat × String × String) :=
  let rows := filteredRows db st
  if st.groupby then sortByFst ((passingIds db st).map (groupOutput rows))
  else sortByFst (rows.map projectRow)

/-- The indicator ids of the projection output. -/
def resultIds (db : DB) (st : PlanState) : List Nat :=
  (projectionResult db st).map (fun x => x.1)

/-- The listing response: the count object or the projected list. -/
inductive ListingResponse
  | countR (n : Nat)
  | listR (rows : List (Nat × String × String))
deriving DecidableEq

/-- GET /indicators: plan the filters, then compile count mode or
projection mode. -/
def readIndicators (P : Parsers) (db : DB) (args : Args) : ListingResponse :=
  let st := buildSt P args
  if args.count then ListingResponse.countR (countResult db st)
  else ListingResponse.listR (projectionResult db st)

/-! ## Create and update flows

Models of create_indicator, create_indicators (bulk) and update_indicator
from indicator.py, and of create_intel_reference from intel_reference.py.
Every domain error returns before the transaction commits, so the flows
are functions to Except: an error carries no staged state. -/

/-- The per-kind auto-create switches of the config collaborator. -/
structure Config where
  autoCreateType : Bool
  autoCreateConfidence : Bool
  autoCreateImpact : Bool
  autoCreateStatus : Bool
  autoCreateCampaign : Bool
  autoCreateIntelReference : Bool
  autoCreateTag : Bool
deriving DecidableEq

/-- One reference item of a create request body. -/
structure RefItem where
  source : String
  reference : String
deriving DecidableEq

/-- The body of a single indicator create request (schema-validated by
the excluded collaborator before the route runs). -/
structure CreateReq where
  username : Option String := none
  type : String := ""
  value : String := ""
  case_sensitive : Option Bool := none
  confidence : Option String := none
  impact : Option String := none
  status : Option String := none
  substring : Option Bool := none
  campaigns : Option (List String) := none
  references : Option (List RefItem) := none
  tags : Option (List String) := none
deriving DecidableEq

/-- A structured error response: HTTP status and message. -/
structure ErrResp where
  status : Nat
  message : String
deriving DecidableEq

deriving instance DecidableEq for Except

/-- User.query.filter_by(username=...).first(). -/
def findUserByName (db : DB) (un : String) : Option UserRow :=
  db.users.find? (fun u => u.username == un)

/-- User.query.filter_by(apikey=...).first(). -/
def findUserByKey (db : DB) (k : String) : Option UserRow :=
  db.users.find? (fun u => u.apikey == k)

/-- IndicatorType.query.filter_by(value=...).first(). -/
def findTypeByValue (db : DB) (v : String) : Option Lookup :=
  db.indicator_types.find? (fun t => t.value == v)

/-- Python value.lower() over the characters. -/
def lowerStr (s : String) : String := String.mk (s.data.map Char.toLower)

/-- The duplicate check of the create flows: same type and same value
under the applicable comparison mode — binary comparison when
case_sensitive is set, lowercased comparison otherwise. -/
def findDuplicate (db : DB) (ty : Lookup) (cs : Bool) (v : String) : Option IndicatorRow :=
  if cs then db.indicators.find? (fun i => i.type_id == ty.id && i.value == v)
  else db.indicators.find? (fun i => i.type_id == ty.id && lowerStr i.value == lowerStr v)

/-- Resolve the requesting user from the username field, or failing that
from the API key. -/
def resolveUserStep (db : DB) (apikey : Option String) (username : Option String) :
    Except ErrResp UserRow :=
  match username with
  | some un =>
    match findUserByName db un with
    | some u => Except.ok u
    | none => Except.error ⟨404, "User not found by username"⟩
  | none =>
    match apikey with
    | some k =>
      match findUserByKey db k with
      | some u => Except.ok u
      | none => Except.error ⟨404, "User not found by API key"⟩
    | none => Except.error ⟨401, "You must supply either username or API key"⟩

/-- Resolve the indicator type, auto-creating it when the config allows. -/
def resolveTypeStep (cfg : Config) (db : DB) (v : String) : Except ErrResp (Lookup × DB) :=
  match findTypeByValue db v with
  | some t => Except.ok (t, db)
  | none =>
    if cfg.autoCreateType then
      let t : Lookup := ⟨db.nextId, v⟩
      Except.ok (t, { db with indicator_types := (db.indicator_types ++ [t]), nextId := db.nextId + 1 })
    else Except.error ⟨404, "Indicator type not found: " ++ v⟩

/-- query.order_by(id).limit(1).first(): the lowest-id row, the implicit
default of confidence, impact and status. -/
def firstByIdOrder (l : List Lookup) : Option Lookup :=
  l.foldl (fun acc x =>
    match acc with
    | none => some x
    | some y => if x.id < y.id then some x else some y) none

/-- Resolve the confidence: lowest-id default when omitted, otherwise
lookup with optional auto-create. -/
def resolveConfidenceStep (cfg : Config) (db : DB) (vo : Option String) :
    Except ErrResp (Lookup × DB) :=
  match vo with
  | none =>
    match firstByIdOrder db.indicator_confidences with
    | some c => Except.ok (c, db)
    | none => Except.error ⟨400, "No indicator confidence values exist to use as default"⟩
  | some v =>
    match db.indicator_confidences.find? (fun x => x.value == v) with
    | some c => Except.ok (c, db)
    | none =>
      if cfg.autoCreateConfidence then
        let c : Lookup := ⟨db.nextId, v⟩
        Except.ok (c, { db with indicator_confidences := (db.indicator_confidences ++ [c]), nextId := db.nextId + 1 })
      else Except.error ⟨404, "Indicator confidence not found: " ++ v⟩

/-- Resolve the impact: lowest-id default when omitted, otherwise lookup
with optional auto-create. -/
def resolveImpactStep (cfg : Config) (db : DB) (vo : Option String) :
    Except ErrResp (Lookup × DB) :=
  match vo with
  | none =>
    match firstByIdOrder db.indicator_impacts with
    | some c => Except.ok (c, db)
    | none => Except.error ⟨400, "No indicator impact values exist to use as default"⟩
  | some v =>
    match db.indicator_impacts.find? (fun x => x.value == v) with
    | some c => Except.ok (c, db)
    | none =>
      if cfg.autoCreateImpact then
        let c : Lookup := ⟨db.nextId, v⟩
        Except.ok (c, { db with indicator_impacts := (db.indicator_impacts ++ [c]), nextId := db.nextId + 1 })
      else Except.error ⟨404, "Indicator impact not found: " ++ v⟩

/-- Resolve the status: lowest-id default when omitted, otherwise lookup
with optional auto-create. -/
def resolveStatusStep (cfg : Config) (db : DB) (vo : Option String) :
    Except ErrResp (Lookup × DB) :=
  match vo with
  | none =>
    match firstByIdOrder db.indicator_statuses with
    | some c => Except.ok (c, db)
    | none => Except.error ⟨400, "No indicator status values exist to use as default"⟩
  | some v =>
    match db.indicator_statuses.find? (fun x => x.value == v) with
    | some c => Except.ok (c, db)
    | none =>
      if cfg.autoCreateStatus then
        let c : Lookup := ⟨db.nextId, v⟩
        Except.ok (c, { db with indicator_statuses := (db.indicator_statuses ++ [c]), nextId := db.nextId + 1 })
      else Except.error ⟨404, "Indicator status not found: " ++ v⟩

/-- Resolve (auto-creating when allowed) each campaign name, returning
the campaign ids to attach. -/
def resolveCampaignsLoop (cfg : Config) (db : DB) : List String → Except ErrResp (DB × List Nat)
  | [] => Except.ok (db, [])
  | n :: rest =>
    match db.campaigns.find? (fun c => c.value == n) with
    | some c =>
      match resolveCampaignsLoop cfg db rest with
      | Except.ok (db2, ids) => Except.ok (db2, c.id :: ids)
      | Except.error e => Except.error e
    | none =>
      if cfg.autoCreateCampaign then
        let c : Lookup := ⟨db.nextId, n⟩
        let db2 := { db with campaigns := (db.campaigns ++ [c]), nextId := db.nextId + 1 }
        match resolveCampaignsLoop cfg db2 rest with
        | Except.ok (db3, ids) => Except.ok (db3, c.id :: ids)
        | Except.error e => Except.error e
      else Except.error ⟨404, "Campaign not found: " ++ n⟩

/-- Resolve (auto-creating when allowed) each tag value, returning the
tag ids to attach. -/
def resolveTagsLoop (cfg : Config) (db : DB) : List String → Except ErrResp (DB × List Nat)
  | [] => Except.ok (db, [])
  | n :: rest =>
    match db.tags.find? (fun t => t.value == n) with
    | some t =>
      match resolveTagsLoop cfg db rest with
      | Except.ok (db2, ids) => Except.ok (db2, t.id :: ids)
      | Except.error e => Except.error e
    | none =>
      if cfg.autoCreateTag then
        let t : Lookup := ⟨db.nextId, n⟩
        let db2 := { db with tags := (db.tags ++ [t]), nextId := db.nextId + 1 }
        match resolveTagsLoop cfg db2 rest with
        | Except.ok (db3, ids) => Except.ok (db3, t.id :: ids)
        | Except.error e => Except.error e
      else Except.error ⟨404, "Tag not found: " ++ n⟩

/-- IntelReference.query.filter(reference == ... and source.value == ...). -/
def findRefByPair (db : DB) (srcval refval : String) : Option RefRow :=
  db.intel_references.find? (fun rf => rf.reference == refval &&
    db.intel_sources.any (fun s => s.id == rf.intel_source_id && s.value == srcval))

/-- Resolve each reference item of a create request, auto-creating the
source and the reference (attributed to the requesting user) when the
config allows. -/
def resolveRefsLoop (cfg : Config) (user : UserRow) (db : DB) :
    List RefItem → Except ErrResp (DB × List Nat)
  | [] => Except.ok (db, [])
  | item :: rest =>
    match findRefByPair db item.source item.reference with
    | some rf =>
      match resolveRefsLoop cfg user db rest with
      | Except.ok (db2, ids) => Except.ok (db2, rf.id :: ids)
      | Except.error e => Except.error e
    | none =>
      if cfg.autoCreateIntelReference then
        let sdb : Lookup × DB :=
          match db.intel_sources.find? (fun s => s.value == item.source) with
          | some s => (s, db)
          | none =>
            let s : Lookup := ⟨db.nextId, item.source⟩
            (s, { db with intel_sources := (db.intel_sources ++ [s]), nextId := db.nextId + 1 })
        let rf : RefRow := ⟨sdb.2.nextId, item.reference, sdb.1.id, user.id⟩
        let db3 := { sdb.2 with intel_references := (sdb.2.intel_references ++ [rf]), nextId := sdb.2.nextId + 1 }
        match resolveRefsLoop cfg user db3 rest with
        | Except.ok (db4, ids) => Except.ok (db4, rf.id :: ids)
        | Except.error e => Except.error e
      else Except.error ⟨404, "Intel reference not found: " ++ item.reference⟩

/-- The shared tail of the create flows once user, type and the duplicate
check are done: resolve the remaining attributes and relations, then
stage the new indicator row and its association rows. -/
def stageIndicator (cfg : Config) (db : DB) (user : UserRow) (ty : Lookup) (cs : Bool)
    (data : CreateReq) (now : Date) : Except ErrResp (DB × Nat) :=
  match resolveConfidenceStep cfg db data.confidence with
  | Except.error e => Except.error e
  | Except.ok (conf, db) =>
  match resolveImpactStep cfg db data.impact with
  | Except.error e => Except.error e
  | Except.ok (imp, db) =>
  match resolveStatusStep cfg db data.status with
  | Except.error e => Except.error e
  | Except.ok (stat, db) =>
  let sub := data.substring.getD false
  match resolveCampaignsLoop cfg db (data.campaigns.getD []) with
  | Except.error e => Except.error e
  | Except.ok (db, campIds) =>
  match resolveRefsLoop cfg user db (data.references.getD []) with
  | Except.error e => Except.error e
  | Except.ok (db, refIds) =>
  match resolveTagsLoop cfg db (data.tags.getD []) with
  | Except.error e => Except.error e
  | Except.ok (db, tagIds) =>
  let ind : IndicatorRow :=
    ⟨db.nextId, data.value, cs, sub, ty.id, conf.id, imp.id, stat.id, user.id, now, now⟩
  let db2 :=
    { db with indicators := db.indicators ++ [ind]
              indicator_campaign_association :=
                db.indicator_campaign_association ++ campIds.map (fun x => (ind.id, x))
              indicator_reference_association :=
                db.indicator_reference_association ++ refIds.map (fun x => (ind.id, x))
              indicator_tag_association :=
                db.indicator_tag_association ++ tagIds.map (fun x => (ind.id, x))
              nextId := db.nextId + 1 }
  Except.ok (db2, ind.id)

/-- POST /indicators: the single-create flow.  A duplicate (type, value)
pair under the applicable case mode is rejected with 409. -/
def createIndicator (cfg : Config) (db : DB) (apikey : Option String) (data : CreateReq)
    (now : Date) : Except ErrResp (DB × Nat) :=
  match resolveUserStep db apikey data.username with
  | Except.error e => Except.error e
  | Except.ok user =>
    if user.active = false then
      Except.error ⟨401, "Cannot create an indicator with an inactive user"⟩
    else
      match resolveTypeStep cfg db data.type with
      | Except.error e => Except.error e
      | Except.ok (ty, db2) =>
        let cs := data.case_sensitive.getD false
        match findDuplicate db2 ty cs data.value with
        | some _ =>
          Except.error ⟨409, if cs then "Case-sensitive indicator already exists"
                             else "Case-insensitive indicator already exists"⟩
        | none => stageIndicator cfg db2 user ty cs data now

/-- POST /indicators/bulk, one item at a time: the same per-item logic,
except that a duplicate item is skipped with continue instead of
erroring.  The per-call memoization cache of the source is a
lookup-avoidance layer over the same staged state (staged entities are
visible to later queries of the transaction) and has no observable effect
here. -/
def createIndicatorsLoop (cfg : Config) (apikey : Option String) (now : Date) :
    DB → List CreateReq → Except ErrResp DB
  | db, [] => Except.ok db
  | db, data :: rest =>
    match resolveUserStep db apikey data.username with
    | Except.error e => Except.error e
    | Except.ok user =>
      if user.active = false then
        Except.error ⟨401, "Cannot create an indicator with an inactive user"⟩
      else
        match resolveTypeStep cfg db data.type with
        | Except.error e => Except.error e
        | Except.ok (ty, db2) =>
          let cs := data.case_sensitive.getD false
          match findDuplicate db2 ty cs data.value with
          | some _ => createIndicatorsLoop cfg apikey now db2 rest
          | none =>
            match stageIndicator cfg db2 user ty cs data now with
            | Except.error e => Except.error e
            | Except.ok (db3, _) => createIndicatorsLoop cfg apikey now db3 rest

/-- POST /indicators/bulk over the whole batch, committed once at the
end. -/
def createIndicators (cfg : Config) (db : DB) (apikey : Option String) (now : Date)
    (reqs : List CreateReq) : Except ErrResp DB :=
  createIndicatorsLoop cfg apikey now db reqs

/-- The form fields of POST /intel/reference. -/
structure IRReq where
  reference : Option String := none
  source : Option String := none
  username : Option String := none
deriving DecidableEq

/-- POST /intel/reference from intel_reference.py: requires the three
fields, the source must exist, the (reference, source) pair must be new,
and the username must resolve; the resolved user's active flag is not
consulted. -/
def createIntelReference (db : DB) (data : IRReq) : Except ErrResp (DB × RefRow) :=
  match data.reference, data.source, data.username with
  | some r, some s, some un =>
    match db.intel_sources.find? (fun x => x.value == s) with
    | none => Except.error ⟨400, "Intel source not found"⟩
    | some source =>
      if db.intel_references.any (fun rf => rf.reference == r && rf.intel_source_id == source.id) then
        Except.error ⟨409, "Intel reference already exists"⟩
      else
        match findUserByName db un with
        | some user =>
          let rf : RefRow := ⟨db.nextId, r, source.id, user.id⟩
          Except.ok ({ db with intel_references := (db.intel_references ++ [rf]), nextId := db.nextId + 1 }, rf)
        | none => Except.error ⟨401, "API username does not exist"⟩
  | _, _, _ => Except.error ⟨400, "Request must include: reference, source, username"⟩

/-- The body of PUT /indicators/(id): every field optional, only present
fields are touched. -/
structure UpdateReq where
  campaigns : Option (List String) := none
  case_sensitive : Option String := none
  confidence : Option String := none
  impact : Option String := none
  references : Option (List RefItem) := none
  status : Option String := none
  substring : Option String := none
  tags : Option (List String) := none
  username : Option String := none
deriving DecidableEq

/-- Replace the association rows of one indicator with the given related
ids (relationship assignment). -/
def setAssoc (l : List (Nat × Nat)) (k : Nat) (ids : List Nat) : List (Nat × Nat) :=
  l.filter (fun a => a.1 != k) ++ ids.map (fun x => (k, x))

/-- Resolve every reference item against existing rows only (update never
auto-creates); the first unresolvable item aborts with 404. -/
def lookupRefsLoop (db : DB) : List RefItem → Except ErrResp (List Nat)
  | [] => Except.ok []
  | item :: rest =>
    match findRefByPair db item.source item.reference with
    | some rf =>
      match lookupRefsLoop db rest with
      | Except.ok ids => Except.ok (rf.id :: ids)
      | Except.error e => Except.error e
    | none => Except.error ⟨404, "Intel reference not found: " ++ item.reference⟩

/-- PUT /indicators/(id) from indicator.py.  The campaigns and tags
branches of the source look each name up and build error_response(404,
...) when the lookup fails but do not return it: the constructed response
is discarded, Python None is appended to the collected relation list, and
the update proceeds.  The model mirrors that control flow — an
unresolvable campaign or tag name aborts nothing — keeping the resolved
entries of the assigned list.  The references, confidence, impact, status
and username branches do return their errors. -/
def updateIndicator (P : Parsers) (db : DB) (indicatorId : Nat) (data : UpdateReq) :
    Except ErrResp DB :=
  match db.indicators.find? (fun i => i.id == indicatorId) with
  | none => Except.error ⟨404, "Indicator ID not found"⟩
  | some ind =>
    let db : DB :=
      match data.campaigns with
      | none => db
      | some names =>
        let valid := names.map (fun n => db.campaigns.find? (fun c => c.value == n))
        if valid.isEmpty then db
        else
          let ids := (valid.filterMap id).map Lookup.id
          { db with indicator_campaign_association := setAssoc db.indicator_campaign_association ind.id ids }
    let ind : IndicatorRow :=
      match data.case_sensitive with
      | none => ind
      | some v => { ind with case_sensitive := (P.parseBool v).getD false }
    match ((match data.confidence with
           | none => Except.ok ind
           | some v =>
             match db.indicator_confidences.find? (fun x => x.value == v) with
             | some c => Except.ok { ind with confidence_id := c.id }
             | none => Except.error ⟨404, "Indicator confidence not found: " ++ v⟩) : Except ErrResp IndicatorRow) with
    | Except.error e => Except.error e
    | Except.ok ind =>
    match ((match data.impact with
           | none => Except.ok ind
           | some v =>
             match db.indicator_impacts.find? (fun x => x.value == v) with
             | some c => Except.ok { ind with impact_id := c.id }
             | none => Except.error ⟨404, "Indicator impact not found: " ++ v⟩) : Except ErrResp IndicatorRow) with
    | Except.error e => Except.error e
    | Except.ok ind =>
    match ((match data.references with
           | none => Except.ok db
           | some items =>
             match lookupRefsLoop db items with
             | Except.error e => Except.error e
             | Except.ok ids =>
               if ids.isEmpty then Except.ok db
               else Except.ok { db with indicator_reference_association := setAssoc db.indicator_reference_association ind.id ids }) : Except ErrResp DB) with
    | Except.error e => Except.error e
    | Except.ok db =>
    match ((match data.status with
           | none => Except.ok ind
           | some v =>
             match db.indicator_statuses.find? (fun x => x.value == v) with
             | some c => Except.ok { ind with status_id := c.id }
             | none => Except.error ⟨404, "Indicator status not found: " ++ v⟩) : Except ErrResp IndicatorRow) with
    | Except.error e => Except.error e
    | Except.ok ind =>
    let ind : IndicatorRow :=
      match data.substring with
      | none => ind
      | some v => { ind with substring := (P.parseBool v).getD false }
    let db : DB :=
      match data.tags with
      | none => db
      | some names =>
        let valid := names.map (fun n => db.tags.find? (fun t => t.value == n))
        if valid.isEmpty then db
        else
          let ids := (valid.filterMap id).map Lookup.id
          { db with indicator_tag_association := setAssoc db.indicator_tag_association ind.id ids }
    match ((match data.username with
           | none => Except.ok ind
           | some un =>
             match findUserByName db un with
             | none => Except.error ⟨404, "User username not found: " ++ un⟩
             | some u =>
               if u.active = false then
                 Except.error ⟨401, "Cannot update an indicator with an inactive user"⟩
               else Except.ok { ind with user_id := u.id }) : Except ErrResp IndicatorRow) with
    | Except.error e => Except.error e
    | Except.ok ind =>
      Except.ok { db with indicators := db.indicators.map (fun i => if i.id == indicatorId then ind else i) }

/-! ## Declarative properties of the store -/

/-- Referential integrity of the type foreign key: every indicator's type
resolves to a type row (the base join of every listing query). -/
def typesOK (db : DB) : Prop :=
  ∀ i ∈ db.indicators, ∃ t ∈ db.indicator_types, t.id = i.type_id

/-- k is the id of some indicator row. -/
def isIndicatorId (db : DB) (k : Nat) : Prop := ∃ i ∈ db.indicators, i.id = k

/-- The indicator with id k carries the tag with value v. -/
def hasTag (db : DB) (k : Nat) (v : String) : Prop :=
  ∃ a ∈ db.indicator_tag_association, a.1 = k ∧ ∃ g ∈ db.tags, g.id = a.2 ∧ g.value = v

/-! ## Basic lemmas about the compiled queries -/

theorem length_insertByFst (x : Nat × String × String) (l : List (Nat × String × String)) :
    (insertByFst x l).length = l.length + 1 := by
  induction l with
  | nil => rfl
  | cons y ys ih =>
    simp only [insertByFst]
    split
    · rfl
    · simp [ih]

theorem length_sortByFst (l : List (Nat × String × String)) :
    (sortByFst l).length = l.length := by
  induction l with
  | nil => rfl
  | cons x xs ih => simp [sortByFst, length_insertByFst, ih]

theorem mem_insertByFst {x y : Nat × String × String} {l : List (Nat × String × String)} :
    y ∈ insertByFst x l ↔ y = x ∨ y ∈ l := by
  induction l with
  | nil => simp [insertByFst]
  | cons z zs ih =>
    simp only [insertByFst]
    split
    · simp
    · simp only [List.mem_cons, ih]
      tauto

theorem mem_sortByFst {x : Nat × String × String} {l : List (Nat × String × String)} :
    x ∈ sortByFst l ↔ x ∈ l := by
  induction l with
  | nil => simp [sortByFst]
  | cons y ys ih => simp [sortByFst, mem_insertByFst, ih]

theorem groupOutput_fst (rows : List Row) (k : Nat) : (groupOutput rows k).1 = k := by
  unfold groupOutput
  cases hgr : groupRows rows k with
  | nil => rfl
  | cons r rs =>
    have hr : r ∈ groupRows rows k := by rw [hgr]; exact List.mem_cons_self r rs
    have hid : rowId r = k := by
      have := List.of_mem_filter hr
      simpa using this
    simp [hgr, projectRow]
    exact hid

/-- Membership in the projection output ids of a grouped plan is
membership among the passing group keys. -/
theorem mem_resultIds_groupby (db : DB) (st : PlanState) (hg : st.groupby = true) (k : Nat) :
    k ∈ resultIds db st ↔ k ∈ passingIds db st := by
  unfold resultIds projectionResult
  rw [hg]
  simp only [if_true, List.mem_map]
  constructor
  · rintro ⟨x, hx, hfst⟩
    rw [mem_sortByFst] at hx
    obtain ⟨k2, hk2, hout⟩ := List.mem_map.mp hx
    rw [← hfst, ← hout, groupOutput_fst]
    exact hk2
  · intro hk
    refine ⟨groupOutput (filteredRows db st) k, ?_, groupOutput_fst _ _⟩
    rw [mem_sortByFst]
    exact List.mem_map.mpr ⟨k, hk, rfl⟩

/-- Membership in the projection output ids of an ungrouped plan is
having a filtered join row with that id. -/
theorem mem_resultIds_nogroup (db : DB) (st : PlanState) (hg : st.groupby = false) (k : Nat) :
    k ∈ resultIds db st ↔ ∃ r ∈ filteredRows db st, rowId r = k := by
  unfold resultIds projectionResult
  rw [hg]
  simp only [Bool.false_eq_true, if_false, List.mem_map]
  constructor
  · rintro ⟨x, hx, hfst⟩
    rw [mem_sortByFst] at hx
    obtain ⟨r, hr, hpr⟩ := List.mem_map.mp hx
    exact ⟨r, hr, by rw [← hfst, ← hpr]; rfl⟩
  · rintro ⟨r, hr, hid⟩
    refine ⟨projectRow r, ?_, hid⟩
    rw [mem_sortByFst]
    exact List.mem_map.mpr ⟨r, hr, rfl⟩

theorem mem_groupRows {rows : List Row} {k : Nat} {r : Row} :
    r ∈ groupRows rows k ↔ r ∈ rows ∧ rowId r = k := by
  simp [groupRows, List.mem_filter]

/-- Membership among the passing group keys: some filtered row has the
id, and the group passes every HAVING predicate. -/
theorem mem_passingIds (db : DB) (st : PlanState) (k : Nat) :
    k ∈ passingIds db st ↔
      (∃ r ∈ filteredRows db st, rowId r = k) ∧
      ∀ h ∈ st.having, evalHav (groupRows (filteredRows db st) k) h = true := by
  unfold passingIds groupIds
  simp [List.mem_filter, List.mem_dedup, List.mem_map, List.all_eq_true]

theorem mem_filteredRows {db : DB} {st : PlanState} {r : Row} :
    r ∈ filteredRows db st ↔
      r ∈ evalJoins db st.joins ∧ ∀ p ∈ st.filters, evalPred db r p = true := by
  simp [filteredRows, List.mem_filter, List.all_eq_true]

/-- C1 helper, stated over every plan state: the count-mode result always
equals the length of the projection-mode result. -/
theorem countResult_eq_length (db : DB) (st : PlanState) :
    countResult db st = (projectionResult db st).length := by
  unfold countResult projectionResult
  by_cases hg : st.groupby
  · simp [hg, length_sortByFst]
  · simp [hg, length_sortByFst]

/-- The projected list carried by a listing response (empty for a count
response). -/
def projectionListOf : ListingResponse → List (Nat × String × String)
  | ListingResponse.countR _ => []
  | ListingResponse.listR rows => rows

/-- C1: for every combination of recognized filter parameters, the
count-mode listing returns exactly the length of the projection-mode
listing for the same filters; when grouping is needed the count counts
the groups of the wrapped grouped id-selecting subquery, not its
fanned-out rows (countResult takes the length of passingIds, never of
filteredRows, when the plan groups). -/
theorem buildSt_count_irrelevant (P : Parsers) (args : Args) (b : Bool) :
    buildSt P { args with count := b } = buildSt P args := rfl

theorem c1_count_parity (P : Parsers) (db : DB) (args : Args) :
    readIndicators P db { args with count := true } =
      ListingResponse.countR (projectionListOf (readIndicators P db { args with count := false })).length := by
  unfold readIndicators
  simp [projectionListOf, countResult_eq_length, buildSt_count_irrelevant]

/-! ## Filter preservation through the handler chain

Every handler only appends WHERE predicates, so a predicate present in
the state stays present; used to place the lenient-date sentinels in the
final plan whatever the other parameters are. -/

theorem filters_joinInner (t : JTable) (st : PlanState) :
    (joinInner t st).filters = st.filters := by
  unfold joinInner
  split <;> rfl

theorem filters_joinOuter (t : JTable) (st : PlanState) :
    (joinOuter t st).filters = st.filters := by
  unfold joinOuter
  split <;> rfl

theorem foldl_addFilter_fsub (f : String → Pred) (l : List String) (st : PlanState) :
    st.filters ⊆ (l.foldl (fun s v => addFilter s (f v)) st).filters := by
  induction l generalizing st with
  | nil => exact fun _ h => h
  | cons a as ih => exact fun p hp => ih (addFilter st (f a)) (List.mem_append_left _ hp)

theorem hCaseSensitive_fsub (P : Parsers) (args : Args) (st : PlanState) :
    st.filters ⊆ (hCaseSensitive P args st).filters := by
  unfold hCaseSensitive
  cases args.case_sensitive
  · exact fun _ h => h
  · exact fun p hp => List.mem_append_left _ hp

theorem hConfidence_fsub (args : Args) (st : PlanState) :
    st.filters ⊆ (hConfidence args st).filters := by
  unfold hConfidence
  cases args.confidence
  · exact fun _ h => h
  · intro p hp
    exact List.mem_append_left _ ((filters_joinInner _ st).symm ▸ hp)

theorem hCreatedAfter_fsub (P : Parsers) (args : Args) (st : PlanState) :
    st.filters ⊆ (hCreatedAfter P args st).filters := by
  unfold hCreatedAfter
  cases args.created_after
  · exact fun _ h => h
  · exact fun p hp => List.mem_append_left _ hp

theorem hCreatedBefore_fsub (P : Parsers) (args : Args) (st : PlanState) :
    st.filters ⊆ (hCreatedBefore P args st).filters := by
  unfold hCreatedBefore
  cases args.created_before
  · exact fun _ h => h
  · exact fun p hp => List.mem_append_left _ hp

theorem hExactValue_fsub (args : Args) (st : PlanState) :
    st.filters ⊆ (hExactValue args st).filters := by
  unfold hExactValue
  cases args.exact_value
  · exact fun _ h => h
  · exact fun p hp => List.mem_append_left _ hp

theorem hImpact_fsub (args : Args) (st : PlanState) :
    st.filters ⊆ (hImpact args st).filters := by
  unfold hImpact
  cases args.impact
  · exact fun _ h => h
  · intro p hp
    exact List.mem_append_left _ ((filters_joinInner _ st).symm ▸ hp)

theorem hModifiedAfter_fsub (P : Parsers) (args : Args) (st : PlanState) :
    st.filters ⊆ (hModifiedAfter P args st).filters := by
  unfold hModifiedAfter
  cases args.modified_after
  · exact fun _ h => h
  · exact fun p hp => List.mem_append_left _ hp

theorem hModifiedBefore_fsub (P : Parsers) (args : Args) (st : PlanState) :
    st.filters ⊆ (hModifiedBefore P args st).filters := by
  unfold hModifiedBefore
  cases args.modified_before
  · exact fun _ h => h
  · exact fun p hp => List.mem_append_left _ hp

theorem hNoCampaigns_fsub (args : Args) (st : PlanState) :
    st.filters ⊆ (hNoCampaigns args st).filters := by
  unfold hNoCampaigns
  split
  · intro p hp
    exact List.mem_append_left _ ((filters_joinOuter _ st).symm ▸ hp)
  · exact fun _ h => h

theorem hNoReferences_fsub (args : Args) (st : PlanState) :
    st.filters ⊆ (hNoReferences args st).filters := by
  unfold hNoReferences
  split
  · intro p hp
    exact List.mem_append_left _ ((filters_joinOuter _ st).symm ▸ hp)
  · exact fun _ h => h

theorem hNoTags_fsub (args : Args) (st : PlanState) :
    st.filters ⊆ (hNoTags args st).filters := by
  unfold hNoTags
  split
  · intro p hp
    exact List.mem_append_left _ ((filters_joinOuter _ st).symm ▸ hp)
  · exact fun _ h => h

theorem hNotSources_fsub (args : Args) (st : PlanState) :
    st.filters ⊆ (hNotSources args st).filters := by
  unfold hNotSources
  cases args.not_sources
  · exact fun _ h => h
  · intro p hp
    apply foldl_addFilter_fsub
    rw [filters_joinInner, filters_joinInner, filters_joinInner]
    exact hp

theorem hNotTags_fsub (args : Args) (st : PlanState) :
    st.filters ⊆ (hNotTags args st).filters := by
  unfold hNotTags
  cases args.not_tags
  · exact fun _ h => h
  · intro p hp
    apply foldl_addFilter_fsub
    rw [filters_joinOuter]
    exact hp

theorem hNotUsers_fsub (args : Args) (st : PlanState) :
    st.filters ⊆ (hNotUsers args st).filters := by
  unfold hNotUsers
  cases args.not_users
  · exact fun _ h => h
  · intro p hp
    apply foldl_addFilter_fsub
    rw [filters_joinInner, filters_joinInner, filters_joinInner]
    exact hp

theorem hReference_fsub (args : Args) (st : PlanState) :
    st.filters ⊆ (hReference args st).filters := by
  unfold hReference
  cases args.reference
  · exact fun _ h => h
  · intro p hp
    exact List.mem_append_left _ ((filters_joinInner _ st).symm ▸ hp)

theorem hSources_fsub (args : Args) (st : PlanState) :
    st.filters ⊆ (hSources args st).filters := by
  unfold hSources
  cases args.sources with
  | none => exact fun _ h => h
  | some v =>
    intro p hp
    have hp2 : p ∈ (joinInner JTable.intelSourceT (joinInner JTable.intelReferenceT
        (joinInner JTable.refAssocT st))).filters := by
      rw [filters_joinInner, filters_joinInner, filters_joinInner]
      exact hp
    dsimp only
    repeat' split
    all_goals first
      | exact List.mem_append_left _ hp2
      | exact hp2

theorem hStatus_fsub (args : Args) (st : PlanState) :
    st.filters ⊆ (hStatus args st).filters := by
  unfold hStatus
  cases args.status
  · exact fun _ h => h
  · intro p hp
    exact List.mem_append_left _ ((filters_joinInner _ st).symm ▸ hp)

theorem hSubstring_fsub (P : Parsers) (args : Args) (st : PlanState) :
    st.filters ⊆ (hSubstring P args st).filters := by
  unfold hSubstring
  cases args.substring
  · exact fun _ h => h
  · exact fun p hp => List.mem_append_left _ hp

theorem hTags_fsub (args : Args) (st : PlanState) :
    st.filters ⊆ (hTags args st).filters := by
  unfold hTags
  cases args.tags with
  | none => exact fun _ h => h
  | some v =>
    intro p hp
    have hp2 : p ∈ (joinInner JTable.tagT (joinInner JTable.tagAssocT st)).filters := by
      rw [filters_joinInner, filters_joinInner]
      exact hp
    dsimp only
    repeat' split
    all_goals first
      | exact List.mem_append_left _ hp2
      | exact hp2

theorem hType_fsub (args : Args) (st : PlanState) :
    st.filters ⊆ (hType args st).filters := by
  unfold hType
  cases args.type
  · exact fun _ h => h
  · exact fun p hp => List.mem_append_left _ hp

theorem hTypes_fsub (args : Args) (st : PlanState) :
    st.filters ⊆ (hTypes args st).filters := by
  unfold hTypes
  cases args.types with
  | none => exact fun _ h => h
  | some v =>
    intro p hp
    dsimp only
    repeat' split
    all_goals first
      | exact List.mem_append_left _ hp
      | exact hp

theorem hUser_fsub (args : Args) (st : PlanState) :
    st.filters ⊆ (hUser args st).filters := by
  unfold hUser
  cases args.user
  · exact fun _ h => h
  · intro p hp
    refine List.mem_append_left _ ?_
    rw [filters_joinInner, filters_joinInner, filters_joinInner]
    exact hp

theorem hUsers_fsub (args : Args) (st : PlanState) :
    st.filters ⊆ (hUsers args st).filters := by
  unfold hUsers
  cases args.users with
  | none => exact fun _ h => h
  | some v =>
    intro p hp
    have hp2 : p ∈ (joinInner JTable.userT (joinInner JTable.intelReferenceT
        (joinInner JTable.refAssocT st))).filters := by
      rw [filters_joinInner, filters_joinInner, filters_joinInner]
      exact hp
    dsimp only
    repeat' split
    all_goals first
      | exact List.mem_append_left _ hp2
      | exact hp2

theorem hValue_fsub (args : Args) (st : PlanState) :
    st.filters ⊆ (hValue args st).filters := by
  unfold hValue
  cases args.value
  · exact fun _ h => h
  · exact fun p hp => List.mem_append_left _ hp

/-- Preservation through the whole tail of the chain after the
modified_before handler. -/
theorem tail_after_dates_fsub (P : Parsers) (args : Args) (st : PlanState) :
    st.filters ⊆ (hValue args (hUsers args (hUser args (hTypes args (hType args (hTags args
      (hSubstring P args (hStatus args (hSources args (hReference args (hNotUsers args
      (hNotTags args (hNotSources args (hNoTags args (hNoReferences args
      (hNoCampaigns args st)))))))))))))))).filters := fun _ hp =>
  hValue_fsub _ _ (hUsers_fsub _ _ (hUser_fsub _ _ (hTypes_fsub _ _ (hType_fsub _ _
    (hTags_fsub _ _ (hSubstring_fsub _ _ _ (hStatus_fsub _ _ (hSources_fsub _ _
    (hReference_fsub _ _ (hNotUsers_fsub _ _ (hNotTags_fsub _ _ (hNotSources_fsub _ _
    (hNoTags_fsub _ _ (hNoReferences_fsub _ _ (hNoCampaigns_fsub _ _ hp)))))))))))))))

/-- C4: a listing request whose created_after, created_before,
modified_after or modified_before value the date parser rejects never
surfaces an error — the planner is a total function — and the parameter
collapses to the extreme sentinel, datetime.date.max for the after
filters and datetime.date.min for the before filters, which enters the
final plan as the strict comparison against the indicator timestamp,
whatever the other parameters are. -/
theorem c4_lenient_dates (P : Parsers) (args : Args) :
    (∀ s, args.created_after = some s → P.parseDate s = none →
      Pred.createdAfter dateMax ∈ (buildSt P args).filters) ∧
    (∀ s, args.created_before = some s → P.parseDate s = none →
      Pred.createdBefore dateMin ∈ (buildSt P args).filters) ∧
    (∀ s, args.modified_after = some s → P.parseDate s = none →
      Pred.modifiedAfter dateMax ∈ (buildSt P args).filters) ∧
    (∀ s, args.modified_before = some s → P.parseDate s = none →
      Pred.modifiedBefore dateMin ∈ (buildSt P args).filters) := by
  refine ⟨?_, ?_, ?_, ?_⟩ <;> intro s hs hp <;> unfold buildSt <;> apply tail_after_dates_fsub
  · apply hModifiedBefore_fsub
    apply hModifiedAfter_fsub
    apply hImpact_fsub
    apply hExactValue_fsub
    apply hCreatedBefore_fsub
    unfold hCreatedAfter
    rw [hs]
    refine List.mem_append_right _ ?_
    rw [hp]
    exact List.mem_singleton.mpr rfl
  · apply hModifiedBefore_fsub
    apply hModifiedAfter_fsub
    apply hImpact_fsub
    apply hExactValue_fsub
    unfold hCreatedBefore
    rw [hs]
    refine List.mem_append_right _ ?_
    rw [hp]
    exact List.mem_singleton.mpr rfl
  · apply hModifiedBefore_fsub
    unfold hModifiedAfter
    rw [hs]
    refine List.mem_append_right _ ?_
    rw [hp]
    exact List.mem_singleton.mpr rfl
  · unfold hModifiedBefore
    rw [hs]
    refine List.mem_append_right _ ?_
    rw [hp]
    exact List.mem_singleton.mpr rfl

/-- A parser pair whose date and boolean parsing always fail, used to
exercise the lenient fallbacks on concrete requests. -/
def failingParsers : Parsers := ⟨fun _ => none, fun _ => none⟩

/-- A request carrying the four date filters with an unparseable value. -/
def argsBadDates : Args :=
  { created_after := some "bogus", created_before := some "bogus",
    modified_after := some "bogus", modified_before := some "bogus" }

/-- Witness for C4: on a concrete request whose four date parameters all
fail to parse, the four sentinel comparisons are in the compiled plan. -/
theorem c4_lenient_dates_witness :
    Pred.createdAfter dateMax ∈ (buildSt failingParsers argsBadDates).filters ∧
    Pred.createdBefore dateMin ∈ (buildSt failingParsers argsBadDates).filters ∧
    Pred.modifiedAfter dateMax ∈ (buildSt failingParsers argsBadDates).filters ∧
    Pred.modifiedBefore dateMin ∈ (buildSt failingParsers argsBadDates).filters :=
  ⟨(c4_lenient_dates failingParsers argsBadDates).1 "bogus" rfl rfl,
   (c4_lenient_dates failingParsers argsBadDates).2.1 "bogus" rfl rfl,
   (c4_lenient_dates failingParsers argsBadDates).2.2.1 "bogus" rfl rfl,
   (c4_lenient_dates failingParsers argsBadDates).2.2.2 "bogus" rfl rfl⟩

/-! ## Join reuse: the two joined sets -/

/-- How many times a table occurs in the join plan, either join kind. -/
def timesJoined (st : PlanState) (t : JTable) : Nat :=
  st.joins.countP (fun j => j == JoinItem.inner t || j == JoinItem.outer t)

/-- The request of the claimed join-minimality example: tags and not_tags
together. -/
def argsTagsAndNotTags : Args := { not_tags := some "b", tags := some "a" }

/-- Counterexample to C3: combining tags and not_tags joins the
indicator-tag association table twice — not_tags outer-joins it (tracked
in already_outerjoined), then tags checks only already_joined and
inner-joins it again. -/
theorem c3_counterexample :
    timesJoined (buildSt failingParsers argsTagsAndNotTags) JTable.tagAssocT = 2 := by decide

/-- The join-reuse invariant the planner actually maintains, per kind:
an inner-joined table is recorded in already_joined and never
inner-joined again, and an outer-joined table is recorded in
already_outerjoined and never outer-joined again. -/
def JoinInv (st : PlanState) : Prop :=
  ∀ t : JTable,
    (JoinItem.inner t ∈ st.joins → t ∈ st.alreadyJoined) ∧
    (JoinItem.outer t ∈ st.joins → t ∈ st.alreadyOuterjoined) ∧
    st.joins.countP (fun j => j == JoinItem.inner t) ≤ 1 ∧
    st.joins.countP (fun j => j == JoinItem.outer t) ≤ 1

theorem joinInv_of_same (st st2 : PlanState) (hj : st2.joins = st.joins)
    (ha : st2.alreadyJoined = st.alreadyJoined)
    (ho : st2.alreadyOuterjoined = st.alreadyOuterjoined)
    (h : JoinInv st) : JoinInv st2 := by
  intro t
  rw [hj, ha, ho]
  exact h t

theorem joinInv_initSt : JoinInv initSt := by
  intro t
  refine ⟨?_, ?_, ?_, ?_⟩
  · intro hmem
    simp only [initSt, List.mem_singleton] at hmem ⊢
    cases hmem
    rfl
  · intro hmem
    simp [initSt] at hmem
  · simp only [initSt, List.countP_cons, List.countP_nil]
    split <;> simp
  · simp only [initSt, List.countP_cons, List.countP_nil]
    split <;> simp

theorem joinInv_joinInner (u : JTable) (st : PlanState) (h : JoinInv st) :
    JoinInv (joinInner u st) := by
  unfold joinInner
  split
  · exact h
  · rename_i hnotin
    intro t
    obtain ⟨h1, h2, h3, h4⟩ := h t
    refine ⟨?_, ?_, ?_, ?_⟩
    · intro hmem
      rw [List.mem_append] at hmem
      rcases hmem with hold | hnew
      · exact List.mem_cons_of_mem _ (h1 hold)
      · rw [List.mem_singleton] at hnew
        cases hnew
        exact List.mem_cons_self _ _
    · intro hmem
      rw [List.mem_append] at hmem
      rcases hmem with hold | hnew
      · exact h2 hold
      · rw [List.mem_singleton] at hnew
        cases hnew
    · rw [List.countP_append]
      by_cases htu : t = u
      · subst htu
        have hzero : st.joins.countP (fun j => j == JoinItem.inner t) = 0 := by
          rw [List.countP_eq_zero]
          intro j hj hbeq
          rw [beq_iff_eq] at hbeq
          subst hbeq
          exact hnotin (h1 hj)
        rw [hzero]
        simp
      · have : List.countP (fun j => j == JoinItem.inner t) [JoinItem.inner u] = 0 := by
          simp
          exact fun heq => htu heq.symm
        rw [this]
        simpa using h3
    · rw [List.countP_append]
      have : List.countP (fun j => j == JoinItem.outer t) [JoinItem.inner u] = 0 := by
        simp
      rw [this]
      simpa using h4

theorem joinInv_joinOuter (u : JTable) (st : PlanState) (h : JoinInv st) :
    JoinInv (joinOuter u st) := by
  unfold joinOuter
  split
  · exact h
  · rename_i hnotin
    intro t
    obtain ⟨h1, h2, h3, h4⟩ := h t
    refine ⟨?_, ?_, ?_, ?_⟩
    · intro hmem
      rw [List.mem_append] at hmem
      rcases hmem with hold | hnew
      · exact h1 hold
      · rw [List.mem_singleton] at hnew
        cases hnew
    · intro hmem
      rw [List.mem_append] at hmem
      rcases hmem with hold | hnew
      · exact List.mem_cons_of_mem _ (h2 hold)
      · rw [List.mem_singleton] at hnew
        cases hnew
        exact List.mem_cons_self _ _
    · rw [List.countP_append]
      have : List.countP (fun j => j == JoinItem.inner t) [JoinItem.outer u] = 0 := by
        simp
      rw [this]
      simpa using h3
    · rw [List.countP_append]
      by_cases htu : t = u
      · subst htu
        have hzero : st.joins.countP (fun j => j == JoinItem.outer t) = 0 := by
          rw [List.countP_eq_zero]
          intro j hj hbeq
          rw [beq_iff_eq] at hbeq
          subst hbeq
          exact hnotin (h2 hj)
        rw [hzero]
        simp
      · have : List.countP (fun j => j == JoinItem.outer t) [JoinItem.outer u] = 0 := by
          simp
          exact fun heq => htu heq.symm
        rw [this]
        simpa using h4

theorem joinInv_foldl_addFilter (f : String → Pred) (l : List String) (st : PlanState)
    (h : JoinInv st) : JoinInv (l.foldl (fun s v => addFilter s (f v)) st) := by
  induction l generalizing st with
  | nil => exact h
  | cons a as ih => exact ih (addFilter st (f a)) (joinInv_of_same _ _ rfl rfl rfl h)

theorem joinInv_hCaseSensitive (P : Parsers) (args : Args) (st : PlanState) (h : JoinInv st) :
    JoinInv (hCaseSensitive P args st) := by
  unfold hCaseSensitive
  cases args.case_sensitive
  · exact h
  · exact joinInv_of_same _ _ rfl rfl rfl h

theorem joinInv_hConfidence (args : Args) (st : PlanState) (h : JoinInv st) :
    JoinInv (hConfidence args st) := by
  unfold hConfidence
  cases args.confidence
  · exact h
  · exact joinInv_of_same _ _ rfl rfl rfl (joinInv_joinInner _ _ h)

theorem joinInv_hCreatedAfter (P : Parsers) (args : Args) (st : PlanState) (h : JoinInv st) :
    JoinInv (hCreatedAfter P args st) := by
  unfold hCreatedAfter
  cases args.created_after
  · exact h
  · exact joinInv_of_same _ _ rfl rfl rfl h

theorem joinInv_hCreatedBefore (P : Parsers) (args : Args) (st : PlanState) (h : JoinInv st) :
    JoinInv (hCreatedBefore P args st) := by
  unfold hCreatedBefore
  cases args.created_before
  · exact h
  · exact joinInv_of_same _ _ rfl rfl rfl h

theorem joinInv_hExactValue (args : Args) (st : PlanState) (h : JoinInv st) :
    JoinInv (hExactValue args st) := by
  unfold hExactValue
  cases args.exact_value
  · exact h
  · exact joinInv_of_same _ _ rfl rfl rfl h

theorem joinInv_hImpact (args : Args) (st : PlanState) (h : JoinInv st) :
    JoinInv (hImpact args st) := by
  unfold hImpact
  cases args.impact
  · exact h
  · exact joinInv_of_same _ _ rfl rfl rfl (joinInv_joinInner _ _ h)

theorem joinInv_hModifiedAfter (P : Parsers) (args : Args) (st : PlanState) (h : JoinInv st) :
    JoinInv (hModifiedAfter P args st) := by
  unfold hModifiedAfter
  cases args.modified_after
  · exact h
  · exact joinInv_of_same _ _ rfl rfl rfl h

theorem joinInv_hModifiedBefore (P : Parsers) (args : Args) (st : PlanState) (h : JoinInv st) :
    JoinInv (hModifiedBefore P args st) := by
  unfold hModifiedBefore
  cases args.modified_before
  · exact h
  · exact joinInv_of_same _ _ rfl rfl rfl h

theorem joinInv_hNoCampaigns (args : Args) (st : PlanState) (h : JoinInv st) :
    JoinInv (hNoCampaigns args st) := by
  unfold hNoCampaigns
  split
  · exact joinInv_of_same _ _ rfl rfl rfl (joinInv_joinOuter _ _ h)
  · exact h

theorem joinInv_hNoReferences (args : Args) (st : PlanState) (h : JoinInv st) :
    JoinInv (hNoReferences args st) := by
  unfold hNoReferences
  split
  · exact joinInv_of_same _ _ rfl rfl rfl (joinInv_joinOuter _ _ h)
  · exact h

theorem joinInv_hNoTags (args : Args) (st : PlanState) (h : JoinInv st) :
    JoinInv (hNoTags args st) := by
  unfold hNoTags
  split
  · exact joinInv_of_same _ _ rfl rfl rfl (joinInv_joinOuter _ _ h)
  · exact h

theorem joinInv_hNotSources (args : Args) (st : PlanState) (h : JoinInv st) :
    JoinInv (hNotSources args st) := by
  unfold hNotSources
  cases args.not_sources
  · exact h
  · refine joinInv_foldl_addFilter _ _ _ (joinInv_of_same _ _ rfl rfl rfl ?_)
    exact joinInv_joinInner _ _ (joinInv_joinInner _ _ (joinInv_joinInner _ _ h))

theorem joinInv_hNotTags (args : Args) (st : PlanState) (h : JoinInv st) :
    JoinInv (hNotTags args st) := by
  unfold hNotTags
  cases args.not_tags
  · exact h
  · exact joinInv_foldl_addFilter _ _ _ (joinInv_of_same _ _ rfl rfl rfl (joinInv_joinOuter _ _ h))

theorem joinInv_hNotUsers (args : Args) (st : PlanState) (h : JoinInv st) :
    JoinInv (hNotUsers args st) := by
  unfold hNotUsers
  cases args.not_users
  · exact h
  · refine joinInv_foldl_addFilter _ _ _ (joinInv_of_same _ _ rfl rfl rfl ?_)
    exact joinInv_joinInner _ _ (joinInv_joinInner _ _ (joinInv_joinInner _ _ h))

theorem joinInv_hReference (args : Args) (st : PlanState) (h : JoinInv st) :
    JoinInv (hReference args st) := by
  unfold hReference
  cases args.reference
  · exact h
  · exact joinInv_of_same _ _ rfl rfl rfl (joinInv_joinInner _ _ h)

theorem joinInv_hSources (args : Args) (st : PlanState) (h : JoinInv st) :
    JoinInv (hSources args st) := by
  unfold hSources
  cases args.sources with
  | none => exact h
  | some v =>
    have h3 : JoinInv (joinInner JTable.intelSourceT (joinInner JTable.intelReferenceT
        (joinInner JTable.refAssocT st))) :=
      joinInv_joinInner _ _ (joinInv_joinInner _ _ (joinInv_joinInner _ _ h))
    dsimp only
    repeat' split
    all_goals exact joinInv_of_same _ _ rfl rfl rfl h3

theorem joinInv_hStatus (args : Args) (st : PlanState) (h : JoinInv st) :
    JoinInv (hStatus args st) := by
  unfold hStatus
  cases args.status
  · exact h
  · exact joinInv_of_same _ _ rfl rfl rfl (joinInv_joinInner _ _ h)

theorem joinInv_hSubstring (P : Parsers) (args : Args) (st : PlanState) (h : JoinInv st) :
    JoinInv (hSubstring P args st) := by
  unfold hSubstring
  cases args.substring
  · exact h
  · exact joinInv_of_same _ _ rfl rfl rfl h

theorem joinInv_hTags (args : Args) (st : PlanState) (h : JoinInv st) :
    JoinInv (hTags args st) := by
  unfold hTags
  cases args.tags with
  | none => exact h
  | some v =>
    have h2 : JoinInv (joinInner JTable.tagT (joinInner JTable.tagAssocT st)) :=
      joinInv_joinInner _ _ (joinInv_joinInner _ _ h)
    dsimp only
    repeat' split
    all_goals exact joinInv_of_same _ _ rfl rfl rfl h2

theorem joinInv_hType (args : Args) (st : PlanState) (h : JoinInv st) :
    JoinInv (hType args st) := by
  unfold hType
  cases args.type
  · exact h
  · exact joinInv_of_same _ _ rfl rfl rfl h

theorem joinInv_hTypes (args : Args) (st : PlanState) (h : JoinInv st) :
    JoinInv (hTypes args st) := by
  unfold hTypes
  cases args.types with
  | none => exact h
  | some v =>
    dsimp only
    repeat' split
    all_goals exact joinInv_of_same _ _ rfl rfl rfl h

theorem joinInv_hUser (args : Args) (st : PlanState) (h : JoinInv st) :
    JoinInv (hUser args st) := by
  unfold hUser
  cases args.user
  · exact h
  · refine joinInv_of_same _ _ rfl rfl rfl ?_
    exact joinInv_joinInner _ _ (joinInv_joinInner _ _ (joinInv_joinInner _ _ h))

theorem joinInv_hUsers (args : Args) (st : PlanState) (h : JoinInv st) :
    JoinInv (hUsers args st) := by
  unfold hUsers
  cases args.users with
  | none => exact h
  | some v =>
    have h3 : JoinInv (joinInner JTable.userT (joinInner JTable.intelReferenceT
        (joinInner JTable.refAssocT st))) :=
      joinInv_joinInner _ _ (joinInv_joinInner _ _ (joinInv_joinInner _ _ h))
    dsimp only
    repeat' split
    all_goals exact joinInv_of_same _ _ rfl rfl rfl h3

theorem joinInv_hValue (args : Args) (st : PlanState) (h : JoinInv st) :
    JoinInv (hValue args st) := by
  unfold hValue
  cases args.value
  · exact h
  · exact joinInv_of_same _ _ rfl rfl rfl h

/-- C3 amended: the planner never inner-joins a table twice and never
outer-joins a table twice — each handler checks the joined set of its own
join kind first — but the two kinds are tracked in separate sets, so a
parameter pair reaching the same table through both kinds (tags with
not_tags, per c3_counterexample) produces one join of each kind for it
rather than a single shared join. -/
theorem c3_join_reuse_per_kind (P : Parsers) (args : Args) (t : JTable) :
    (buildSt P args).joins.countP (fun j => j == JoinItem.inner t) ≤ 1 ∧
    (buildSt P args).joins.countP (fun j => j == JoinItem.outer t) ≤ 1 := by
  have hinv : JoinInv (buildSt P args) := by
    unfold buildSt
    apply joinInv_hValue
    apply joinInv_hUsers
    apply joinInv_hUser
    apply joinInv_hTypes
    apply joinInv_hType
    apply joinInv_hTags
    apply joinInv_hSubstring
    apply joinInv_hStatus
    apply joinInv_hSources
    apply joinInv_hReference
    apply joinInv_hNotUsers
    apply joinInv_hNotTags
    apply joinInv_hNotSources
    apply joinInv_hNoTags
    apply joinInv_hNoReferences
    apply joinInv_hNoCampaigns
    apply joinInv_hModifiedBefore
    apply joinInv_hModifiedAfter
    apply joinInv_hImpact
    apply joinInv_hExactValue
    apply joinInv_hCreatedBefore
    apply joinInv_hCreatedAfter
    apply joinInv_hConfidence
    apply joinInv_hCaseSensitive
    exact joinInv_initSt
  obtain ⟨_, _, h3, h4⟩ := hinv t
  exact ⟨h3, h4⟩

/-! ## Row membership in the evaluated joins -/

theorem mem_joinStep_inner {db : DB} {rows : List Row} {t : JTable} {r2 : Row} :
    r2 ∈ joinStep db rows (JoinItem.inner t) ↔ ∃ r ∈ rows, r2 ∈ innerRows db t r := by
  simp [joinStep, List.mem_flatMap]

theorem mem_joinStep_outer {db : DB} {rows : List Row} {t : JTable} {r2 : Row} :
    r2 ∈ joinStep db rows (JoinItem.outer t) ↔
      ∃ r ∈ rows, (innerRows db t r = [] ∧ r2 = r) ∨ r2 ∈ innerRows db t r := by
  simp only [joinStep, List.mem_flatMap]
  constructor
  · rintro ⟨r, hr, hmem⟩
    refine ⟨r, hr, ?_⟩
    by_cases he : (innerRows db t r).isEmpty
    · rw [if_pos he] at hmem
      rw [List.mem_singleton] at hmem
      exact Or.inl ⟨List.isEmpty_iff.mp he, hmem⟩
    · rw [if_neg he] at hmem
      exact Or.inr hmem
  · rintro ⟨r, hr, hcase⟩
    refine ⟨r, hr, ?_⟩
    rcases hcase with ⟨hnil, rfl⟩ | hmem
    · rw [hnil]
      simp
    · have hne : innerRows db t r ≠ [] := List.ne_nil_of_mem hmem
      rw [if_neg (fun h => hne (List.isEmpty_iff.mp h))]
      exact hmem

theorem mem_rowsInit {db : DB} {r : Row} :
    r ∈ db.indicators.map (fun i => { ind := i }) ↔ ∃ i ∈ db.indicators, r = { ind := i } := by
  simp only [List.mem_map]
  constructor
  · rintro ⟨i, hi, rfl⟩
    exact ⟨i, hi, rfl⟩
  · rintro ⟨i, hi, rfl⟩
    exact ⟨i, hi, rfl⟩

/-- The rows of the base plan joining Indicator to IndicatorType only. -/
theorem mem_evalJoins_typeOnly (db : DB) (r : Row) :
    r ∈ evalJoins db [JoinItem.inner JTable.indicatorType] ↔
      ∃ i ∈ db.indicators, ∃ t ∈ db.indicator_types, t.id = i.type_id ∧
        r = { ind := i, typ := some t } := by
  unfold evalJoins
  rw [List.foldl_cons, List.foldl_nil, mem_joinStep_inner]
  constructor
  · rintro ⟨r1, hr1, hr2⟩
    rw [mem_rowsInit] at hr1
    obtain ⟨i, hi, rfl⟩ := hr1
    simp only [innerRows, List.mem_map, List.mem_filter, beq_iff_eq] at hr2
    obtain ⟨t, ⟨ht, htid⟩, rfl⟩ := hr2
    exact ⟨i, hi, t, ht, htid, rfl⟩
  · rintro ⟨i, hi, t, ht, htid, rfl⟩
    refine ⟨{ ind := i }, mem_rowsInit.mpr ⟨i, hi, rfl⟩, ?_⟩
    simp only [innerRows, List.mem_map, List.mem_filter, beq_iff_eq]
    exact ⟨t, ⟨ht, htid⟩, rfl⟩

/-- The request GET /indicators?types=[OR]A,B of the claim. -/
def argsTypesOr : Args := { types := some "[OR]A,B" }

/-- C10: the types filter never recognizes the [OR] marker — the value is
split on commas as-is, so types=[OR]A,B compiles to a disjunction of
equalities against the literal values "[OR]A" and "B", and the listing
returns exactly the indicators whose type value is one of those two
literal strings. -/
theorem c10_types_marker_not_stripped (P : Parsers) (db : DB) (k : Nat) :
    (buildSt P argsTypesOr).filters = [Pred.orP [EqPred.typeEq "[OR]A", EqPred.typeEq "B"]] ∧
    (k ∈ resultIds db (buildSt P argsTypesOr) ↔
      ∃ i ∈ db.indicators, i.id = k ∧ ∃ t ∈ db.indicator_types, t.id = i.type_id ∧
        (t.value = "[OR]A" ∨ t.value = "B")) := by
  have hplan : buildSt P argsTypesOr =
      { joins := [JoinItem.inner JTable.indicatorType]
        filters := [Pred.orP [EqPred.typeEq "[OR]A", EqPred.typeEq "B"]]
        groupby := false
        having := []
        alreadyJoined := [JTable.indicatorType]
        alreadyOuterjoined := [] } := rfl
  refine ⟨by rw [hplan], ?_⟩
  rw [hplan, mem_resultIds_nogroup db _ rfl k]
  constructor
  · rintro ⟨r, hr, hid⟩
    rw [mem_filteredRows] at hr
    obtain ⟨hjoin, hfilt⟩ := hr
    rw [mem_evalJoins_typeOnly] at hjoin
    obtain ⟨i, hi, t, ht, htid, rfl⟩ := hjoin
    have hp := hfilt _ (List.mem_singleton.mpr rfl)
    simp only [evalPred, evalEqPred, List.any_cons, List.any_nil, Bool.or_false,
      Bool.or_eq_true, beq_iff_eq] at hp
    exact ⟨i, hi, hid, t, ht, htid, hp⟩
  · rintro ⟨i, hi, hid, t, ht, htid, hval⟩
    refine ⟨{ ind := i, typ := some t }, ?_, hid⟩
    rw [mem_filteredRows]
    constructor
    · rw [mem_evalJoins_typeOnly]
      exact ⟨i, hi, t, ht, htid, rfl⟩
    · intro p hp
      rw [List.mem_singleton] at hp
      subst hp
      simp only [evalPred, evalEqPred, List.any_cons, List.any_nil, Bool.or_false,
        Bool.or_eq_true, beq_iff_eq]
      exact hval

/-- The rows after joining the tag association to the base plan. -/
theorem mem_evalJoins_typeTagAssoc (db : DB) (r : Row) :
    r ∈ evalJoins db [JoinItem.inner JTable.indicatorType, JoinItem.inner JTable.tagAssocT] ↔
      ∃ i ∈ db.indicators, ∃ t ∈ db.indicator_types, t.id = i.type_id ∧
        ∃ a ∈ db.indicator_tag_association, a.1 = i.id ∧
          r = { ind := i, typ := some t, tagA := some a } := by
  have hstep : evalJoins db [JoinItem.inner JTable.indicatorType, JoinItem.inner JTable.tagAssocT] =
      joinStep db (evalJoins db [JoinItem.inner JTable.indicatorType])
        (JoinItem.inner JTable.tagAssocT) := rfl
  rw [hstep, mem_joinStep_inner]
  constructor
  · rintro ⟨r1, hr1, hr2⟩
    rw [mem_evalJoins_typeOnly] at hr1
    obtain ⟨i, hi, t, ht, htid, rfl⟩ := hr1
    simp only [innerRows, List.mem_map, List.mem_filter, beq_iff_eq] at hr2
    obtain ⟨a, ⟨ha, haid⟩, rfl⟩ := hr2
    exact ⟨i, hi, t, ht, htid, a, ha, haid, rfl⟩
  · rintro ⟨i, hi, t, ht, htid, a, ha, haid, rfl⟩
    refine ⟨{ ind := i, typ := some t },
      (mem_evalJoins_typeOnly db _).mpr ⟨i, hi, t, ht, htid, rfl⟩, ?_⟩
    simp only [innerRows, List.mem_map, List.mem_filter, beq_iff_eq]
    exact ⟨a, ⟨ha, haid⟩, rfl⟩

/-- The rows of the plan of a tags filter: Indicator joined to Type, the
tag association and Tag. -/
theorem mem_evalJoins_tagsPlan (db : DB) (r : Row) :
    r ∈ evalJoins db [JoinItem.inner JTable.indicatorType, JoinItem.inner JTable.tagAssocT,
        JoinItem.inner JTable.tagT] ↔
      ∃ i ∈ db.indicators, ∃ t ∈ db.indicator_types, t.id = i.type_id ∧
        ∃ a ∈ db.indicator_tag_association, a.1 = i.id ∧ ∃ g ∈ db.tags, g.id = a.2 ∧
          r = { ind := i, typ := some t, tagA := some a, tag := some g } := by
  have hstep : evalJoins db [JoinItem.inner JTable.indicatorType, JoinItem.inner JTable.tagAssocT,
      JoinItem.inner JTable.tagT] =
      joinStep db (evalJoins db [JoinItem.inner JTable.indicatorType, JoinItem.inner JTable.tagAssocT])
        (JoinItem.inner JTable.tagT) := rfl
  rw [hstep, mem_joinStep_inner]
  constructor
  · rintro ⟨r1, hr1, hr2⟩
    rw [mem_evalJoins_typeTagAssoc] at hr1
    obtain ⟨i, hi, t, ht, htid, a, ha, haid, rfl⟩ := hr1
    simp only [innerRows, List.mem_map, List.mem_filter, beq_iff_eq] at hr2
    obtain ⟨g, ⟨hg, hgid⟩, rfl⟩ := hr2
    exact ⟨i, hi, t, ht, htid, a, ha, haid, g, hg, hgid, rfl⟩
  · rintro ⟨i, hi, t, ht, htid, a, ha, haid, g, hg, hgid, rfl⟩
    refine ⟨{ ind := i, typ := some t, tagA := some a },
      (mem_evalJoins_typeTagAssoc db _).mpr ⟨i, hi, t, ht, htid, a, ha, haid, rfl⟩, ?_⟩
    simp only [innerRows, List.mem_map, List.mem_filter, beq_iff_eq]
    exact ⟨g, ⟨hg, hgid⟩, rfl⟩

/-- A tag-counting HAVING atom holds on a group precisely when some row
of the group carries the tag value. -/
theorem evalHavAtom_tag_iff (grp : List Row) (s : String) :
    evalHavAtom grp (HavAtom.tagSumPos s) = true ↔
      ∃ r ∈ grp, evalEqPred r (EqPred.tagEq s) = true := by
  simp [evalHavAtom, List.length_pos_iff_exists_mem, List.mem_filter]

/-- The AND-mode request of the claim. -/
def argsTagsAnd : Args := { tags := some "a,b" }

/-- The OR-mode request of the claim. -/
def argsTagsOr : Args := { tags := some "[OR]a,b" }

/-- C2: tags=a,b (AND mode) returns exactly the indicators carrying both
tag a and tag b, compiled with grouping forced and one
count-of-matching-rows-positive HAVING clause per required value,
conjoined; tags=[OR]a,b returns exactly the indicators carrying tag a or
tag b, compiled as a disjunction of equality WHERE clauses. -/
theorem c2_tags_and_vs_or (P : Parsers) (db : DB) (hdb : typesOK db) (k : Nat) :
    ((buildSt P argsTagsAnd).groupby = true ∧
     (buildSt P argsTagsAnd).having = [Hav.andH [HavAtom.tagSumPos "a", HavAtom.tagSumPos "b"]] ∧
     (buildSt P argsTagsOr).filters = [Pred.orP [EqPred.tagEq "a", EqPred.tagEq "b"]]) ∧
    (k ∈ resultIds db (buildSt P argsTagsAnd) ↔
      isIndicatorId db k ∧ hasTag db k "a" ∧ hasTag db k "b") ∧
    (k ∈ resultIds db (buildSt P argsTagsOr) ↔
      isIndicatorId db k ∧ (hasTag db k "a" ∨ hasTag db k "b")) := by
  have hplanAnd : buildSt P argsTagsAnd =
      { joins := [JoinItem.inner JTable.indicatorType, JoinItem.inner JTable.tagAssocT,
          JoinItem.inner JTable.tagT]
        filters := []
        groupby := true
        having := [Hav.andH [HavAtom.tagSumPos "a", HavAtom.tagSumPos "b"]]
        alreadyJoined := [JTable.tagT, JTable.tagAssocT, JTable.indicatorType]
        alreadyOuterjoined := [] } := rfl
  have hplanOr : buildSt P argsTagsOr =
      { joins := [JoinItem.inner JTable.indicatorType, JoinItem.inner JTable.tagAssocT,
          JoinItem.inner JTable.tagT]
        filters := [Pred.orP [EqPred.tagEq "a", EqPred.tagEq "b"]]
        groupby := true
        having := []
        alreadyJoined := [JTable.tagT, JTable.tagAssocT, JTable.indicatorType]
        alreadyOuterjoined := [] } := rfl
  refine ⟨⟨by rw [hplanAnd], by rw [hplanAnd], by rw [hplanOr]⟩, ?_, ?_⟩
  · rw [hplanAnd, mem_resultIds_groupby db _ rfl k, mem_passingIds]
    constructor
    · rintro ⟨⟨r, hr, hrid⟩, hhav⟩
      have hand := hhav _ (List.mem_singleton.mpr rfl)
      simp only [evalHav, List.all_cons, List.all_nil, Bool.and_true, Bool.and_eq_true] at hand
      obtain ⟨hava, havb⟩ := hand
      have hraw := (mem_filteredRows.mp hr).1
      rw [mem_evalJoins_tagsPlan] at hraw
      obtain ⟨i, hi, t, ht, htid, a, ha, haid, g, hg, hgid, rfl⟩ := hraw
      refine ⟨⟨i, hi, ?_⟩, ?_, ?_⟩
      · simpa [rowId] using hrid
      · obtain ⟨ra, hra, hpa⟩ := (evalHavAtom_tag_iff _ "a").mp hava
        obtain ⟨hraf, hraid⟩ := mem_groupRows.mp hra
        have hraw2 := (mem_filteredRows.mp hraf).1
        rw [mem_evalJoins_tagsPlan] at hraw2
        obtain ⟨i2, hi2, t2, ht2, htid2, a2, ha2, haid2, g2, hg2, hgid2, rfl⟩ := hraw2
        simp only [evalEqPred, beq_iff_eq] at hpa
        have hk2 : i2.id = k := by simpa [rowId] using hraid
        exact ⟨a2, ha2, by rw [haid2, hk2], g2, hg2, hgid2, hpa⟩
      · obtain ⟨rb, hrb, hpb⟩ := (evalHavAtom_tag_iff _ "b").mp havb
        obtain ⟨hrbf, hrbid⟩ := mem_groupRows.mp hrb
        have hraw2 := (mem_filteredRows.mp hrbf).1
        rw [mem_evalJoins_tagsPlan] at hraw2
        obtain ⟨i2, hi2, t2, ht2, htid2, a2, ha2, haid2, g2, hg2, hgid2, rfl⟩ := hraw2
        simp only [evalEqPred, beq_iff_eq] at hpb
        have hk2 : i2.id = k := by simpa [rowId] using hrbid
        exact ⟨a2, ha2, by rw [haid2, hk2], g2, hg2, hgid2, hpb⟩
    · rintro ⟨⟨i, hi, hik⟩, ⟨aa, haa, haak, ga, hga, hgaid, hgaval⟩,
        ⟨ab, hab, habk, gb, hgb, hgbid, hgbval⟩⟩
      obtain ⟨t, ht, htid⟩ := hdb i hi
      have hrowa : ({ ind := i, typ := some t, tagA := some aa, tag := some ga } : Row) ∈
          filteredRows db (buildSt P argsTagsAnd) := by
        rw [hplanAnd, mem_filteredRows]
        refine ⟨?_, fun p hp => absurd hp (List.not_mem_nil p)⟩
        rw [mem_evalJoins_tagsPlan]
        exact ⟨i, hi, t, ht, htid, aa, haa, by rw [haak, hik], ga, hga, hgaid, rfl⟩
      have hrowb : ({ ind := i, typ := some t, tagA := some ab, tag := some gb } : Row) ∈
          filteredRows db (buildSt P argsTagsAnd) := by
        rw [hplanAnd, mem_filteredRows]
        refine ⟨?_, fun p hp => absurd hp (List.not_mem_nil p)⟩
        rw [mem_evalJoins_tagsPlan]
        exact ⟨i, hi, t, ht, htid, ab, hab, by rw [habk, hik], gb, hgb, hgbid, rfl⟩
      rw [hplanAnd] at hrowa hrowb
      refine ⟨⟨_, hrowa, by simpa [rowId] using hik⟩, ?_⟩
      intro h hh
      rw [List.mem_singleton] at hh
      subst hh
      simp only [evalHav, List.all_cons, List.all_nil, Bool.and_true, Bool.and_eq_true]
      constructor
      · rw [evalHavAtom_tag_iff]
        refine ⟨_, mem_groupRows.mpr ⟨hrowa, by simpa [rowId] using hik⟩, ?_⟩
        simp [evalEqPred, hgaval]
      · rw [evalHavAtom_tag_iff]
        refine ⟨_, mem_groupRows.mpr ⟨hrowb, by simpa [rowId] using hik⟩, ?_⟩
        simp [evalEqPred, hgbval]
  · rw [hplanOr, mem_resultIds_groupby db _ rfl k, mem_passingIds]
    constructor
    · rintro ⟨⟨r, hr, hrid⟩, _⟩
      obtain ⟨hraw, hfilt⟩ := mem_filteredRows.mp hr
      rw [mem_evalJoins_tagsPlan] at hraw
      obtain ⟨i, hi, t, ht, htid, a, ha, haid, g, hg, hgid, rfl⟩ := hraw
      have hk : i.id = k := by simpa [rowId] using hrid
      have hp := hfilt _ (List.mem_singleton.mpr rfl)
      simp only [evalPred, evalEqPred, List.any_cons, List.any_nil, Bool.or_false,
        Bool.or_eq_true, beq_iff_eq] at hp
      refine ⟨⟨i, hi, hk⟩, ?_⟩
      rcases hp with hva | hvb
      · exact Or.inl ⟨a, ha, by rw [haid, hk], g, hg, hgid, hva⟩
      · exact Or.inr ⟨a, ha, by rw [haid, hk], g, hg, hgid, hvb⟩
    · rintro ⟨⟨i, hi, hik⟩, hcase⟩
      obtain ⟨t, ht, htid⟩ := hdb i hi
      have hrow : ∃ a ∈ db.indicator_tag_association, a.1 = i.id ∧
          ∃ g ∈ db.tags, g.id = a.2 ∧ (g.value = "a" ∨ g.value = "b") := by
        rcases hcase with ⟨a, ha, hak, g, hg, hgid, hval⟩ | ⟨a, ha, hak, g, hg, hgid, hval⟩
        · exact ⟨a, ha, by rw [hak, hik], g, hg, hgid, Or.inl hval⟩
        · exact ⟨a, ha, by rw [hak, hik], g, hg, hgid, Or.inr hval⟩
      obtain ⟨a, ha, hak, g, hg, hgid, hval⟩ := hrow
      have hmem : ({ ind := i, typ := some t, tagA := some a, tag := some g } : Row) ∈
          filteredRows db (buildSt P argsTagsOr) := by
        rw [hplanOr, mem_filteredRows]
        constructor
        · rw [mem_evalJoins_tagsPlan]
          exact ⟨i, hi, t, ht, htid, a, ha, hak, g, hg, hgid, rfl⟩
        · intro p hp
          rw [List.mem_singleton] at hp
          subst hp
          simp only [evalPred, evalEqPred, List.any_cons, List.any_nil, Bool.or_false,
            Bool.or_eq_true, beq_iff_eq]
          exact hval
      rw [hplanOr] at hmem
      exact ⟨⟨_, hmem, by simpa [rowId] using hik⟩, fun h hh => absurd hh (List.not_mem_nil h)⟩

/-- A concrete store for the tags claims: indicator 1 carries tags a and
b, indicator 2 only tag a, indicator 3 no tags. -/
def dbTagsW : DB :=
  { indicators := [⟨1, "x", false, false, 10, 0, 0, 0, 0, 0, 0⟩,
      ⟨2, "y", false, false, 10, 0, 0, 0, 0, 0, 0⟩,
      ⟨3, "z", false, false, 10, 0, 0, 0, 0, 0, 0⟩]
    indicator_types := [⟨10, "IP"⟩]
    indicator_confidences := []
    indicator_impacts := []
    indicator_statuses := []
    tags := [⟨50, "a"⟩, ⟨51, "b"⟩]
    campaigns := []
    intel_sources := []
    intel_references := []
    users := []
    indicator_campaign_association := []
    indicator_reference_association := []
    indicator_tag_association := [(1, 50), (1, 51), (2, 50)]
    nextId := 100 }

/-- Witness for C2 at the concrete store and indicator id 1. -/
theorem c2_tags_and_vs_or_witness :
    (((buildSt failingParsers argsTagsAnd).groupby = true ∧
      (buildSt failingParsers argsTagsAnd).having =
        [Hav.andH [HavAtom.tagSumPos "a", HavAtom.tagSumPos "b"]] ∧
      (buildSt failingParsers argsTagsOr).filters =
        [Pred.orP [EqPred.tagEq "a", EqPred.tagEq "b"]]) ∧
     (1 ∈ resultIds dbTagsW (buildSt failingParsers argsTagsAnd) ↔
       isIndicatorId dbTagsW 1 ∧ hasTag dbTagsW 1 "a" ∧ hasTag dbTagsW 1 "b") ∧
     (1 ∈ resultIds dbTagsW (buildSt failingParsers argsTagsOr) ↔
       isIndicatorId dbTagsW 1 ∧ (hasTag dbTagsW 1 "a" ∨ hasTag dbTagsW 1 "b"))) :=
  c2_tags_and_vs_or failingParsers dbTagsW (by unfold typesOK; decide) 1

/-- The not_tags request of the claim. -/
def argsNotTags : Args := { not_tags := some "a" }

/-- The rows after outer-joining the tag association to the base plan:
an indicator with no association rows is preserved with a NULL
association. -/
theorem mem_evalJoins_typeOuterTagAssoc (db : DB) (r : Row) :
    r ∈ evalJoins db [JoinItem.inner JTable.indicatorType, JoinItem.outer JTable.tagAssocT] ↔
      ∃ i ∈ db.indicators, ∃ t ∈ db.indicator_types, t.id = i.type_id ∧
        ((db.indicator_tag_association.filter (fun a => a.1 == i.id) = [] ∧
            r = { ind := i, typ := some t }) ∨
          ∃ a ∈ db.indicator_tag_association, a.1 = i.id ∧
            r = { ind := i, typ := some t, tagA := some a }) := by
  have hstep : evalJoins db [JoinItem.inner JTable.indicatorType, JoinItem.outer JTable.tagAssocT] =
      joinStep db (evalJoins db [JoinItem.inner JTable.indicatorType])
        (JoinItem.outer JTable.tagAssocT) := rfl
  rw [hstep, mem_joinStep_outer]
  constructor
  · rintro ⟨r1, hr1, hcase⟩
    rw [mem_evalJoins_typeOnly] at hr1
    obtain ⟨i, hi, t, ht, htid, rfl⟩ := hr1
    rcases hcase with ⟨hnil, rfl⟩ | hmem
    · refine ⟨i, hi, t, ht, htid, Or.inl ⟨?_, rfl⟩⟩
      simpa [innerRows] using hnil
    · simp only [innerRows, List.mem_map, List.mem_filter, beq_iff_eq] at hmem
      obtain ⟨a, ⟨ha, haid⟩, rfl⟩ := hmem
      exact ⟨i, hi, t, ht, htid, Or.inr ⟨a, ha, haid, rfl⟩⟩
  · rintro ⟨i, hi, t, ht, htid, hcase⟩
    refine ⟨{ ind := i, typ := some t },
      (mem_evalJoins_typeOnly db _).mpr ⟨i, hi, t, ht, htid, rfl⟩, ?_⟩
    rcases hcase with ⟨hnil, rfl⟩ | ⟨a, ha, haid, rfl⟩
    · refine Or.inl ⟨?_, rfl⟩
      simpa [innerRows] using hnil
    · refine Or.inr ?_
      simp only [innerRows, List.mem_map, List.mem_filter, beq_iff_eq]
      exact ⟨a, ⟨ha, haid⟩, rfl⟩

/-- The correlated tag-existence boolean agrees with the declarative
hasTag relation. -/
theorem hasTagB_iff (db : DB) (k : Nat) (v : String) :
    hasTagB db k v = true ↔ hasTag db k v := by
  simp [hasTagB, hasTag, List.any_eq_true, Bool.and_eq_true, beq_iff_eq]

/-- C5: not_tags=a returns exactly the indicators lacking tag a,
including indicators with no tags at all — the tag association is
outer-joined, so zero-tag indicators survive the join, and the one
excluded value compiles to a single negated correlated existence
predicate in the WHERE set. -/
theorem c5_not_tags (P : Parsers) (db : DB) (hdb : typesOK db) (k : Nat) :
    ((buildSt P argsNotTags).joins =
        [JoinItem.inner JTable.indicatorType, JoinItem.outer JTable.tagAssocT] ∧
     (buildSt P argsNotTags).filters = [Pred.notTagAny "a"]) ∧
    (k ∈ resultIds db (buildSt P argsNotTags) ↔
      isIndicatorId db k ∧ ¬hasTag db k "a") := by
  have hplan : buildSt P argsNotTags =
      { joins := [JoinItem.inner JTable.indicatorType, JoinItem.outer JTable.tagAssocT]
        filters := [Pred.notTagAny "a"]
        groupby := true
        having := []
        alreadyJoined := [JTable.indicatorType]
        alreadyOuterjoined := [JTable.tagAssocT] } := rfl
  refine ⟨⟨by rw [hplan], by rw [hplan]⟩, ?_⟩
  rw [hplan, mem_resultIds_groupby db _ rfl k, mem_passingIds]
  constructor
  · rintro ⟨⟨r, hr, hrid⟩, _⟩
    obtain ⟨hraw, hfilt⟩ := mem_filteredRows.mp hr
    rw [mem_evalJoins_typeOuterTagAssoc] at hraw
    obtain ⟨i, hi, t, ht, htid, hcase⟩ := hraw
    have hp := hfilt _ (List.mem_singleton.mpr rfl)
    have hkid : i.id = k := by
      rcases hcase with ⟨_, rfl⟩ | ⟨a, _, _, rfl⟩ <;> simpa [rowId] using hrid
    have hno : hasTagB db i.id "a" = false := by
      rcases hcase with ⟨_, rfl⟩ | ⟨a, _, _, rfl⟩ <;>
        simpa [evalPred, Bool.not_eq_true'] using hp
    refine ⟨⟨i, hi, hkid⟩, ?_⟩
    rw [← hkid]
    intro hcon
    rw [← hasTagB_iff] at hcon
    rw [hcon] at hno
    cases hno
  · rintro ⟨⟨i, hi, hik⟩, hno⟩
    obtain ⟨t, ht, htid⟩ := hdb i hi
    have hnoB : hasTagB db i.id "a" = false := by
      rw [← Bool.not_eq_true, hasTagB_iff, hik]
      exact hno
    have hfiltOK : ∀ r2 : Row, r2.ind = i →
        (∀ p ∈ [Pred.notTagAny "a"], evalPred db r2 p = true) := by
      intro r2 hr2 p hp
      rw [List.mem_singleton] at hp
      subst hp
      simp [evalPred, hr2, hnoB]
    cases hfa : db.indicator_tag_association.filter (fun a => a.1 == i.id) with
    | nil =>
      have hrow : ({ ind := i, typ := some t } : Row) ∈ filteredRows db
          { joins := [JoinItem.inner JTable.indicatorType, JoinItem.outer JTable.tagAssocT]
            filters := [Pred.notTagAny "a"]
            groupby := true
            having := []
            alreadyJoined := [JTable.indicatorType]
            alreadyOuterjoined := [JTable.tagAssocT] } := by
        rw [mem_filteredRows]
        refine ⟨?_, hfiltOK _ rfl⟩
        rw [mem_evalJoins_typeOuterTagAssoc]
        exact ⟨i, hi, t, ht, htid, Or.inl ⟨hfa, rfl⟩⟩
      exact ⟨⟨_, hrow, by simpa [rowId] using hik⟩,
        fun h hh => absurd hh (List.not_mem_nil h)⟩
    | cons a as =>
      have hamem : a ∈ db.indicator_tag_association.filter (fun x => x.1 == i.id) := by
        rw [hfa]
        exact List.mem_cons_self a as
      rw [List.mem_filter, beq_iff_eq] at hamem
      have hrow : ({ ind := i, typ := some t, tagA := some a } : Row) ∈ filteredRows db
          { joins := [JoinItem.inner JTable.indicatorType, JoinItem.outer JTable.tagAssocT]
            filters := [Pred.notTagAny "a"]
            groupby := true
            having := []
            alreadyJoined := [JTable.indicatorType]
            alreadyOuterjoined := [JTable.tagAssocT] } := by
        rw [mem_filteredRows]
        refine ⟨?_, hfiltOK _ rfl⟩
        rw [mem_evalJoins_typeOuterTagAssoc]
        exact ⟨i, hi, t, ht, htid, Or.inr ⟨a, hamem.1, hamem.2, rfl⟩⟩
      exact ⟨⟨_, hrow, by simpa [rowId] using hik⟩,
        fun h hh => absurd hh (List.not_mem_nil h)⟩

/-- A concrete store for the not_tags claim: indicator 1 carries tag a,
indicator 2 tag b only, indicator 3 nothing. -/
def dbNotTagsW : DB :=
  { indicators := [⟨1, "x", false, false, 10, 0, 0, 0, 0, 0, 0⟩,
      ⟨2, "y", false, false, 10, 0, 0, 0, 0, 0, 0⟩,
      ⟨3, "z", false, false, 10, 0, 0, 0, 0, 0, 0⟩]
    indicator_types := [⟨10, "IP"⟩]
    indicator_confidences := []
    indicator_impacts := []
    indicator_statuses := []
    tags := [⟨50, "a"⟩, ⟨51, "b"⟩]
    campaigns := []
    intel_sources := []
    intel_references := []
    users := []
    indicator_campaign_association := []
    indicator_reference_association := []
    indicator_tag_association := [(1, 50), (2, 51)]
    nextId := 100 }

/-- Witness for C5 at the concrete store and the zero-tag indicator 3. -/
theorem c5_not_tags_witness :
    (((buildSt failingParsers argsNotTags).joins =
        [JoinItem.inner JTable.indicatorType, JoinItem.outer JTable.tagAssocT] ∧
      (buildSt failingParsers argsNotTags).filters = [Pred.notTagAny "a"]) ∧
     (3 ∈ resultIds dbNotTagsW (buildSt failingParsers argsNotTags) ↔
       isIndicatorId dbNotTagsW 3 ∧ ¬hasTag dbNotTagsW 3 "a")) :=
  c5_not_tags failingParsers dbNotTagsW (by unfold typesOK; decide) 3

/-! ## The exclusion filters over the reference chain -/

/-- The rows after inner-joining the reference association to the base
plan. -/
theorem mem_evalJoins_typeRefAssoc (db : DB) (r : Row) :
    r ∈ evalJoins db [JoinItem.inner JTable.indicatorType, JoinItem.inner JTable.refAssocT] ↔
      ∃ i ∈ db.indicators, ∃ t ∈ db.indicator_types, t.id = i.type_id ∧
        ∃ a ∈ db.indicator_reference_association, a.1 = i.id ∧
          r = { ind := i, typ := some t, refA := some a } := by
  have hstep : evalJoins db [JoinItem.inner JTable.indicatorType, JoinItem.inner JTable.refAssocT] =
      joinStep db (evalJoins db [JoinItem.inner JTable.indicatorType])
        (JoinItem.inner JTable.refAssocT) := rfl
  rw [hstep, mem_joinStep_inner]
  constructor
  · rintro ⟨r1, hr1, hr2⟩
    rw [mem_evalJoins_typeOnly] at hr1
    obtain ⟨i, hi, t, ht, htid, rfl⟩ := hr1
    simp only [innerRows, List.mem_map, List.mem_filter, beq_iff_eq] at hr2
    obtain ⟨a, ⟨ha, haid⟩, rfl⟩ := hr2
    exact ⟨i, hi, t, ht, htid, a, ha, haid, rfl⟩
  · rintro ⟨i, hi, t, ht, htid, a, ha, haid, rfl⟩
    refine ⟨{ ind := i, typ := some t },
      (mem_evalJoins_typeOnly db _).mpr ⟨i, hi, t, ht, htid, rfl⟩, ?_⟩
    simp only [innerRows, List.mem_map, List.mem_filter, beq_iff_eq]
    exact ⟨a, ⟨ha, haid⟩, rfl⟩

/-- The rows after further joining IntelReference. -/
theorem mem_evalJoins_refChain (db : DB) (r : Row) :
    r ∈ evalJoins db [JoinItem.inner JTable.indicatorType, JoinItem.inner JTable.refAssocT,
        JoinItem.inner JTable.intelReferenceT] ↔
      ∃ i ∈ db.indicators, ∃ t ∈ db.indicator_types, t.id = i.type_id ∧
        ∃ a ∈ db.indicator_reference_association, a.1 = i.id ∧
          ∃ rf ∈ db.intel_references, rf.id = a.2 ∧
            r = { ind := i, typ := some t, refA := some a, ref := some rf } := by
  have hstep : evalJoins db [JoinItem.inner JTable.indicatorType, JoinItem.inner JTable.refAssocT,
      JoinItem.inner JTable.intelReferenceT] =
      joinStep db (evalJoins db [JoinItem.inner JTable.indicatorType,
        JoinItem.inner JTable.refAssocT]) (JoinItem.inner JTable.intelReferenceT) := rfl
  rw [hstep, mem_joinStep_inner]
  constructor
  · rintro ⟨r1, hr1, hr2⟩
    rw [mem_evalJoins_typeRefAssoc] at hr1
    obtain ⟨i, hi, t, ht, htid, a, ha, haid, rfl⟩ := hr1
    simp only [innerRows, List.mem_map, List.mem_filter, beq_iff_eq] at hr2
    obtain ⟨rf, ⟨hrf, hrfid⟩, rfl⟩ := hr2
    exact ⟨i, hi, t, ht, htid, a, ha, haid, rf, hrf, hrfid, rfl⟩
  · rintro ⟨i, hi, t, ht, htid, a, ha, haid, rf, hrf, hrfid, rfl⟩
    refine ⟨{ ind := i, typ := some t, refA := some a },
      (mem_evalJoins_typeRefAssoc db _).mpr ⟨i, hi, t, ht, htid, a, ha, haid, rfl⟩, ?_⟩
    simp only [innerRows, List.mem_map, List.mem_filter, beq_iff_eq]
    exact ⟨rf, ⟨hrf, hrfid⟩, rfl⟩

/-- The rows of the not_sources plan, reaching IntelSource. -/
theorem mem_evalJoins_sourceChain (db : DB) (r : Row) :
    r ∈ evalJoins db [JoinItem.inner JTable.indicatorType, JoinItem.inner JTable.refAssocT,
        JoinItem.inner JTable.intelReferenceT, JoinItem.inner JTable.intelSourceT] ↔
      ∃ i ∈ db.indicators, ∃ t ∈ db.indicator_types, t.id = i.type_id ∧
        ∃ a ∈ db.indicator_reference_association, a.1 = i.id ∧
          ∃ rf ∈ db.intel_references, rf.id = a.2 ∧
            ∃ s ∈ db.intel_sources, s.id = rf.intel_source_id ∧
              r = { ind := i, typ := some t, refA := some a, ref := some rf, src := some s } := by
  have hstep : evalJoins db [JoinItem.inner JTable.indicatorType, JoinItem.inner JTable.refAssocT,
      JoinItem.inner JTable.intelReferenceT, JoinItem.inner JTable.intelSourceT] =
      joinStep db (evalJoins db [JoinItem.inner JTable.indicatorType,
        JoinItem.inner JTable.refAssocT, JoinItem.inner JTable.intelReferenceT])
        (JoinItem.inner JTable.intelSourceT) := rfl
  rw [hstep, mem_joinStep_inner]
  constructor
  · rintro ⟨r1, hr1, hr2⟩
    rw [mem_evalJoins_refChain] at hr1
    obtain ⟨i, hi, t, ht, htid, a, ha, haid, rf, hrf, hrfid, rfl⟩ := hr1
    simp only [innerRows, List.mem_map, List.mem_filter, beq_iff_eq] at hr2
    obtain ⟨s, ⟨hs, hsid⟩, rfl⟩ := hr2
    exact ⟨i, hi, t, ht, htid, a, ha, haid, rf, hrf, hrfid, s, hs, hsid, rfl⟩
  · rintro ⟨i, hi, t, ht, htid, a, ha, haid, rf, hrf, hrfid, s, hs, hsid, rfl⟩
    refine ⟨{ ind := i, typ := some t, refA := some a, ref := some rf },
      (mem_evalJoins_refChain db _).mpr ⟨i, hi, t, ht, htid, a, ha, haid, rf, hrf, hrfid, rfl⟩, ?_⟩
    simp only [innerRows, List.mem_map, List.mem_filter, beq_iff_eq]
    exact ⟨s, ⟨hs, hsid⟩, rfl⟩

/-- The rows of the not_users plan, reaching User through the reference. -/
theorem mem_evalJoins_userChain (db : DB) (r : Row) :
    r ∈ evalJoins db [JoinItem.inner JTable.indicatorType, JoinItem.inner JTable.refAssocT,
        JoinItem.inner JTable.intelReferenceT, JoinItem.inner JTable.userT] ↔
      ∃ i ∈ db.indicators, ∃ t ∈ db.indicator_types, t.id = i.type_id ∧
        ∃ a ∈ db.indicator_reference_association, a.1 = i.id ∧
          ∃ rf ∈ db.intel_references, rf.id = a.2 ∧
            ∃ u ∈ db.users, u.id = rf.user_id ∧
              r = { ind := i, typ := some t, refA := some a, ref := some rf, usr := some u } := by
  have hstep : evalJoins db [JoinItem.inner JTable.indicatorType, JoinItem.inner JTable.refAssocT,
      JoinItem.inner JTable.intelReferenceT, JoinItem.inner JTable.userT] =
      joinStep db (evalJoins db [JoinItem.inner JTable.indicatorType,
        JoinItem.inner JTable.refAssocT, JoinItem.inner JTable.intelReferenceT])
        (JoinItem.inner JTable.userT) := rfl
  rw [hstep, mem_joinStep_inner]
  constructor
  · rintro ⟨r1, hr1, hr2⟩
    rw [mem_evalJoins_refChain] at hr1
    obtain ⟨i, hi, t, ht, htid, a, ha, haid, rf, hrf, hrfid, rfl⟩ := hr1
    simp only [innerRows, List.mem_map, List.mem_filter, beq_iff_eq] at hr2
    obtain ⟨u, ⟨hu, huid⟩, rfl⟩ := hr2
    exact ⟨i, hi, t, ht, htid, a, ha, haid, rf, hrf, hrfid, u, hu, huid, rfl⟩
  · rintro ⟨i, hi, t, ht, htid, a, ha, haid, rf, hrf, hrfid, u, hu, huid, rfl⟩
    refine ⟨{ ind := i, typ := some t, refA := some a, ref := some rf },
      (mem_evalJoins_refChain db _).mpr ⟨i, hi, t, ht, htid, a, ha, haid, rf, hrf, hrfid, rfl⟩, ?_⟩
    simp only [innerRows, List.mem_map, List.mem_filter, beq_iff_eq]
    exact ⟨u, ⟨hu, huid⟩, rfl⟩

/-- The indicator with id k has some associated reference whose owning
source's value differs from every listed value — the per-row reading of
the not_sources filter. -/
def hasRefSourceOtherThan (db : DB) (k : Nat) (vals : List String) : Prop :=
  ∃ a ∈ db.indicator_reference_association, a.1 = k ∧
    ∃ rf ∈ db.intel_references, rf.id = a.2 ∧
      ∃ s ∈ db.intel_sources, s.id = rf.intel_source_id ∧ ∀ v ∈ vals, s.value ≠ v

/-- The indicator with id k has some associated reference whose owning
user's username differs from every listed value. -/
def hasRefUserOtherThan (db : DB) (k : Nat) (vals : List String) : Prop :=
  ∃ a ∈ db.indicator_reference_association, a.1 = k ∧
    ∃ rf ∈ db.intel_references, rf.id = a.2 ∧
      ∃ u ∈ db.users, u.id = rf.user_id ∧ ∀ v ∈ vals, u.username ≠ v

/-- The not_sources request of the claim. -/
def argsNotSources : Args := { not_sources := some "a,b" }

/-- The not_users request of the claim. -/
def argsNotUsers : Args := { not_users := some "a,b" }

/-- C6: not_sources (and analogously not_users) forces grouping and
appends one per-row inequality WHERE clause per excluded value,
conjunctive on the fanned-out joined rows: an indicator is returned
exactly when some joined reference row carries a source value
(respectively reference-owning username) different from every excluded
value — the literal per-row semantics, not "has none of these
sources". -/
theorem c6_exclusion_per_row (P : Parsers) (db : DB) (hdb : typesOK db) (k : Nat) :
    ((buildSt P argsNotSources).filters = [Pred.sourceNe "a", Pred.sourceNe "b"] ∧
     (buildSt P argsNotSources).groupby = true ∧
     (buildSt P argsNotUsers).filters = [Pred.userNe "a", Pred.userNe "b"] ∧
     (buildSt P argsNotUsers).groupby = true) ∧
    (k ∈ resultIds db (buildSt P argsNotSources) ↔
      isIndicatorId db k ∧ hasRefSourceOtherThan db k ["a", "b"]) ∧
    (k ∈ resultIds db (buildSt P argsNotUsers) ↔
      isIndicatorId db k ∧ hasRefUserOtherThan db k ["a", "b"]) := by
  have hplanS : buildSt P argsNotSources =
      { joins := [JoinItem.inner JTable.indicatorType, JoinItem.inner JTable.refAssocT,
          JoinItem.inner JTable.intelReferenceT, JoinItem.inner JTable.intelSourceT]
        filters := [Pred.sourceNe "a", Pred.sourceNe "b"]
        groupby := true
        having := []
        alreadyJoined := [JTable.intelSourceT, JTable.intelReferenceT, JTable.refAssocT,
          JTable.indicatorType]
        alreadyOuterjoined := [] } := rfl
  have hplanU : buildSt P argsNotUsers =
      { joins := [JoinItem.inner JTable.indicatorType, JoinItem.inner JTable.refAssocT,
          JoinItem.inner JTable.intelReferenceT, JoinItem.inner JTable.userT]
        filters := [Pred.userNe "a", Pred.userNe "b"]
        groupby := true
        having := []
        alreadyJoined := [JTable.userT, JTable.intelReferenceT, JTable.refAssocT,
          JTable.indicatorType]
        alreadyOuterjoined := [] } := rfl
  refine ⟨⟨by rw [hplanS], by rw [hplanS], by rw [hplanU], by rw [hplanU]⟩, ?_, ?_⟩
  · rw [hplanS, mem_resultIds_groupby db _ rfl k, mem_passingIds]
    constructor
    · rintro ⟨⟨r, hr, hrid⟩, _⟩
      obtain ⟨hraw, hfilt⟩ := mem_filteredRows.mp hr
      rw [mem_evalJoins_sourceChain] at hraw
      obtain ⟨i, hi, t, ht, htid, a, ha, haid, rf, hrf, hrfid, s, hs, hsid, rfl⟩ := hraw
      have hkid : i.id = k := by simpa [rowId] using hrid
      have hpa := hfilt _ (List.mem_cons_self _ _)
      have hpb := hfilt _ (List.mem_cons_of_mem _ (List.mem_singleton.mpr rfl))
      simp only [evalPred, decide_eq_true_eq] at hpa hpb
      refine ⟨⟨i, hi, hkid⟩, a, ha, by rw [haid, hkid], rf, hrf, hrfid, s, hs, hsid, ?_⟩
      intro v hv
      rcases List.mem_cons.mp hv with rfl | hv2
      · exact hpa
      · rw [List.mem_singleton] at hv2
        subst hv2
        exact hpb
    · rintro ⟨⟨i, hi, hik⟩, a, ha, hak, rf, hrf, hrfid, s, hs, hsid, hne⟩
      obtain ⟨t, ht, htid⟩ := hdb i hi
      have hrow : ({ ind := i, typ := some t, refA := some a, ref := some rf, src := some s } : Row) ∈
          filteredRows db (buildSt P argsNotSources) := by
        rw [hplanS, mem_filteredRows]
        constructor
        · rw [mem_evalJoins_sourceChain]
          exact ⟨i, hi, t, ht, htid, a, ha, by rw [hak, hik], rf, hrf, hrfid, s, hs, hsid, rfl⟩
        · intro p hp
          rcases List.mem_cons.mp hp with rfl | hp2
          · simpa [evalPred] using hne "a" (by simp)
          · rw [List.mem_singleton] at hp2
            subst hp2
            simpa [evalPred] using hne "b" (by simp)
      rw [hplanS] at hrow
      exact ⟨⟨_, hrow, by simpa [rowId] using hik⟩, fun h hh => absurd hh (List.not_mem_nil h)⟩
  · rw [hplanU, mem_resultIds_groupby db _ rfl k, mem_passingIds]
    constructor
    · rintro ⟨⟨r, hr, hrid⟩, _⟩
      obtain ⟨hraw, hfilt⟩ := mem_filteredRows.mp hr
      rw [mem_evalJoins_userChain] at hraw
      obtain ⟨i, hi, t, ht, htid, a, ha, haid, rf, hrf, hrfid, u, hu, huid, rfl⟩ := hraw
      have hkid : i.id = k := by simpa [rowId] using hrid
      have hpa := hfilt _ (List.mem_cons_self _ _)
      have hpb := hfilt _ (List.mem_cons_of_mem _ (List.mem_singleton.mpr rfl))
      simp only [evalPred, decide_eq_true_eq] at hpa hpb
      refine ⟨⟨i, hi, hkid⟩, a, ha, by rw [haid, hkid], rf, hrf, hrfid, u, hu, huid, ?_⟩
      intro v hv
      rcases List.mem_cons.mp hv with rfl | hv2
      · exact hpa
      · rw [List.mem_singleton] at hv2
        subst hv2
        exact hpb
    · rintro ⟨⟨i, hi, hik⟩, a, ha, hak, rf, hrf, hrfid, u, hu, huid, hne⟩
      obtain ⟨t, ht, htid⟩ := hdb i hi
      have hrow : ({ ind := i, typ := some t, refA := some a, ref := some rf, usr := some u } : Row) ∈
          filteredRows db (buildSt P argsNotUsers) := by
        rw [hplanU, mem_filteredRows]
        constructor
        · rw [mem_evalJoins_userChain]
          exact ⟨i, hi, t, ht, htid, a, ha, by rw [hak, hik], rf, hrf, hrfid, u, hu, huid, rfl⟩
        · intro p hp
          rcases List.mem_cons.mp hp with rfl | hp2
          · simpa [evalPred] using hne "a" (by simp)
          · rw [List.mem_singleton] at hp2
            subst hp2
            simpa [evalPred] using hne "b" (by simp)
      rw [hplanU] at hrow
      exact ⟨⟨_, hrow, by simpa [rowId] using hik⟩, fun h hh => absurd hh (List.not_mem_nil h)⟩

/-- A concrete store for the exclusion claims: indicator 1 has two
references, one owned by source a and user a, one owned by source c and
user c; so the conjunctive per-row semantics still returns it for
not_sources=a,b. -/
def dbExclW : DB :=
  { indicators := [⟨1, "x", false, false, 10, 0, 0, 0, 100, 0, 0⟩]
    indicator_types := [⟨10, "IP"⟩]
    indicator_confidences := []
    indicator_impacts := []
    indicator_statuses := []
    tags := []
    campaigns := []
    intel_sources := [⟨60, "a"⟩, ⟨61, "c"⟩]
    intel_references := [⟨70, "r1", 60, 100⟩, ⟨71, "r2", 61, 101⟩]
    users := [⟨100, "a", "k1", true⟩, ⟨101, "c", "k2", true⟩]
    indicator_campaign_association := []
    indicator_reference_association := [(1, 70), (1, 71)]
    indicator_tag_association := []
    nextId := 200 }

/-- Witness for C6 at the concrete store and indicator 1, which keeps a
non-excluded source row. -/
theorem c6_exclusion_per_row_witness :
    (((buildSt failingParsers argsNotSources).filters =
        [Pred.sourceNe "a", Pred.sourceNe "b"] ∧
      (buildSt failingParsers argsNotSources).groupby = true ∧
      (buildSt failingParsers argsNotUsers).filters =
        [Pred.userNe "a", Pred.userNe "b"] ∧
      (buildSt failingParsers argsNotUsers).groupby = true) ∧
     (1 ∈ resultIds dbExclW (buildSt failingParsers argsNotSources) ↔
       isIndicatorId dbExclW 1 ∧ hasRefSourceOtherThan dbExclW 1 ["a", "b"]) ∧
     (1 ∈ resultIds dbExclW (buildSt failingParsers argsNotUsers) ↔
       isIndicatorId dbExclW 1 ∧ hasRefUserOtherThan dbExclW 1 ["a", "b"])) :=
  c6_exclusion_per_row failingParsers dbExclW (by unfold typesOK; decide) 1

/-! ## Duplicate handling of the create flows -/

/-- C7: creating an indicator whose (type, value) already exists under
the applicable comparison mode fails with 409 on the single endpoint,
while the bulk endpoint silently skips the duplicate item — processing
the batch with the duplicate is the same as processing it without, so the
remaining items still commit and no error is returned for the
duplicate. -/
theorem c7_duplicate_conflict_vs_skip (cfg : Config) (db : DB) (apikey : Option String)
    (data : CreateReq) (now : Date) (u : UserRow) (ty : Lookup) (ex : IndicatorRow)
    (hu : resolveUserStep db apikey data.username = Except.ok u)
    (hactive : u.active = true)
    (hty : findTypeByValue db data.type = some ty)
    (hdup : findDuplicate db ty (data.case_sensitive.getD false) data.value = some ex) :
    createIndicator cfg db apikey data now =
      Except.error ⟨409, if data.case_sensitive.getD false
        then "Case-sensitive indicator already exists"
        else "Case-insensitive indicator already exists"⟩ ∧
    ∀ rest, createIndicators cfg db apikey now (data :: rest) =
      createIndicators cfg db apikey now rest := by
  have hresolve : resolveTypeStep cfg db data.type = Except.ok (ty, db) := by
    unfold resolveTypeStep
    rw [hty]
  constructor
  · unfold createIndicator
    rw [hu, hresolve]
    simp only [hactive, Bool.true_eq_false, if_false, hdup]
  · intro rest
    unfold createIndicators
    conv_lhs => rw [createIndicatorsLoop]
    rw [hu, hresolve]
    simp only [hactive, Bool.true_eq_false, if_false, hdup]

/-- A concrete store with one existing indicator (IP, 1.2.3.4) and an
active user, for the duplicate-handling witness. -/
def dbDupW : DB :=
  { indicators := [⟨1, "1.2.3.4", false, false, 10, 20, 30, 40, 100, 0, 0⟩]
    indicator_types := [⟨10, "IP"⟩]
    indicator_confidences := [⟨20, "LOW"⟩]
    indicator_impacts := [⟨30, "LOW"⟩]
    indicator_statuses := [⟨40, "NEW"⟩]
    tags := []
    campaigns := []
    intel_sources := []
    intel_references := []
    users := [⟨100, "analyst", "key1", true⟩]
    indicator_campaign_association := []
    indicator_reference_association := []
    indicator_tag_association := []
    nextId := 200 }

/-- The duplicate create request of the witness (same type and value up
to case, case-insensitive mode). -/
def reqDupW : CreateReq := { username := some "analyst", type := "IP", value := "1.2.3.4" }

/-- A fresh create request used as the rest of the witness batch. -/
def reqFreshW : CreateReq := { username := some "analyst", type := "IP", value := "5.6.7.8" }

/-- Witness for C7: the duplicate request is rejected with 409 by the
single endpoint and skipped by the bulk endpoint, whose result on
duplicate-then-fresh equals its result on fresh alone. -/
theorem c7_duplicate_conflict_vs_skip_witness :
    (createIndicator ⟨false, false, false, false, false, false, false⟩ dbDupW none reqDupW 7 =
      Except.error ⟨409, if reqDupW.case_sensitive.getD false
        then "Case-sensitive indicator already exists"
        else "Case-insensitive indicator already exists"⟩ ∧
    ∀ rest, createIndicators ⟨false, false, false, false, false, false, false⟩ dbDupW none 7
        (reqDupW :: rest) =
      createIndicators ⟨false, false, false, false, false, false, false⟩ dbDupW none 7 rest) :=
  c7_duplicate_conflict_vs_skip ⟨false, false, false, false, false, false, false⟩ dbDupW none
    reqDupW 7 ⟨100, "analyst", "key1", true⟩ ⟨10, "IP"⟩
    ⟨1, "1.2.3.4", false, false, 10, 20, 30, 40, 100, 0, 0⟩ (by decide) rfl (by decide) (by decide)

/-! ## The active-user check of the create flows -/

/-- A concrete store whose only user is inactive, with one intel
source. -/
def dbInactiveW : DB :=
  { indicators := []
    indicator_types := []
    indicator_confidences := []
    indicator_impacts := []
    indicator_statuses := []
    tags := []
    campaigns := []
    intel_sources := [⟨60, "OSINT"⟩]
    intel_references := []
    users := [⟨100, "lazy", "k", false⟩]
    indicator_campaign_association := []
    indicator_reference_association := []
    indicator_tag_association := []
    nextId := 200 }

/-- The intel reference create request naming the inactive user. -/
def reqIRInactive : IRReq := ⟨some "r1", some "OSINT", some "lazy"⟩

/-- Counterexample to C8: the standalone intel reference creation
endpoint accepts an inactive resolved user — the user lazy has active
false, yet the create succeeds with 201 and stages a reference attributed
to that user, instead of the claimed 401. -/
theorem c8_counterexample :
    findUserByName dbInactiveW "lazy" = some ⟨100, "lazy", "k", false⟩ ∧
    createIntelReference dbInactiveW reqIRInactive =
      Except.ok ({ dbInactiveW with intel_references := [⟨200, "r1", 60, 100⟩], nextId := 201 },
        ⟨200, "r1", 60, 100⟩) := by decide

/-- C8 amended: indicator creation — single and bulk — fails with 401
before staging anything when the resolved user is inactive (the Except
error carries no staged state); the standalone intel reference creation
endpoint checks only that the username resolves and attributes the new
reference to the resolved user whatever the active flag is. -/
theorem c8_inactive_user_amended :
    (∀ (cfg : Config) (db : DB) (apikey : Option String) (data : CreateReq) (now : Date)
        (u : UserRow), resolveUserStep db apikey data.username = Except.ok u →
      u.active = false →
      createIndicator cfg db apikey data now =
        Except.error ⟨401, "Cannot create an indicator with an inactive user"⟩) ∧
    (∀ (cfg : Config) (db : DB) (apikey : Option String) (data : CreateReq) (now : Date)
        (u : UserRow) (rest : List CreateReq),
      resolveUserStep db apikey data.username = Except.ok u →
      u.active = false →
      createIndicators cfg db apikey now (data :: rest) =
        Except.error ⟨401, "Cannot create an indicator with an inactive user"⟩) ∧
    (∀ (db : DB) (data : IRReq) (r s un : String) (source : Lookup) (user : UserRow),
      data.reference = some r → data.source = some s → data.username = some un →
      db.intel_sources.find? (fun x => x.value == s) = some source →
      db.intel_references.any (fun rf => rf.reference == r && rf.intel_source_id == source.id) =
        false →
      findUserByName db un = some user →
      createIntelReference db data =
        Except.ok ({ db with intel_references := db.intel_references ++ [⟨db.nextId, r, source.id, user.id⟩]
                             nextId := db.nextId + 1 },
          ⟨db.nextId, r, source.id, user.id⟩)) := by
  refine ⟨?_, ?_, ?_⟩
  · intro cfg db apikey data now u hu hinactive
    unfold createIndicator
    rw [hu]
    simp [hinactive]
  · intro cfg db apikey data now u rest hu hinactive
    unfold createIndicators createIndicatorsLoop
    rw [hu]
    simp [hinactive]
  · intro db data r s un source user hr hs hun hsource hnodup huser
    unfold createIntelReference
    simp only [hr, hs, hun, hsource, hnodup, huser]
    simp

/-- A request from an active user, to exercise the indicator conjuncts of
the amended claim on a store whose user list marks analyst inactive. -/
def dbInactiveCreateW : DB := { dbInactiveW with users := [⟨100, "analyst", "key1", false⟩] }

/-- Witness for the amended C8 at concrete inputs: indicator creation
(single and bulk) rejects the inactive user with 401, and the intel
reference endpoint stages a reference attributed to the inactive user. -/
theorem c8_inactive_user_amended_witness :
    (createIndicator ⟨true, true, true, true, true, true, true⟩ dbInactiveCreateW none
        { username := some "analyst", type := "IP", value := "1.2.3.4" } 7 =
      Except.error ⟨401, "Cannot create an indicator with an inactive user"⟩) ∧
    (createIndicators ⟨true, true, true, true, true, true, true⟩ dbInactiveCreateW none 7
        [{ username := some "analyst", type := "IP", value := "1.2.3.4" }] =
      Except.error ⟨401, "Cannot create an indicator with an inactive user"⟩) ∧
    (createIntelReference dbInactiveW reqIRInactive =
      Except.ok ({ dbInactiveW with intel_references := dbInactiveW.intel_references ++ [⟨dbInactiveW.nextId, "r1", 60, 100⟩]
                                    nextId := dbInactiveW.nextId + 1 },
        ⟨dbInactiveW.nextId, "r1", 60, 100⟩)) :=
  ⟨c8_inactive_user_amended.1 ⟨true, true, true, true, true, true, true⟩ dbInactiveCreateW none
      { username := some "analyst", type := "IP", value := "1.2.3.4" } 7
      ⟨100, "analyst", "key1", false⟩ (by decide) rfl,
   c8_inactive_user_amended.2.1 ⟨true, true, true, true, true, true, true⟩ dbInactiveCreateW none
      { username := some "analyst", type := "IP", value := "1.2.3.4" } 7
      ⟨100, "analyst", "key1", false⟩ [] (by decide) rfl,
   c8_inactive_user_amended.2.2 dbInactiveW reqIRInactive "r1" "OSINT" "lazy" ⟨60, "OSINT"⟩
      ⟨100, "lazy", "k", false⟩ rfl rfl rfl (by decide) (by decide) (by decide)⟩

/-! ## The discarded 404 of update_indicator -/

/-- A concrete store with one indicator, and no campaigns or tags at
all, so any campaign or tag name in an update request is
unresolvable. -/
def dbUpdW : DB :=
  { indicators := [⟨1, "x", false, false, 10, 20, 30, 40, 100, 0, 0⟩]
    indicator_types := [⟨10, "IP"⟩]
    indicator_confidences := [⟨20, "LOW"⟩]
    indicator_impacts := [⟨30, "LOW"⟩]
    indicator_statuses := [⟨40, "NEW"⟩]
    tags := []
    campaigns := []
    intel_sources := []
    intel_references := []
    users := [⟨100, "analyst", "key1", true⟩]
    indicator_campaign_association := []
    indicator_reference_association := []
    indicator_tag_association := []
    nextId := 200 }

/-- C9, evaluated at the failing input: a PUT /indicators/1 request
naming an unresolvable campaign (respectively tag) does not fail — the
route builds the 404 response without returning it, so the update
completes with 200 — contradicting both the claim and the route's own
docstring, which promise 404 for an unknown campaign or tag name. -/
theorem c9_update_unknown_name_no_404 :
    updateIndicator failingParsers dbUpdW 1 { campaigns := some ["nope"] } =
      Except.ok dbUpdW ∧
    updateIndicator failingParsers dbUpdW 1 { tags := some ["nope"] } =
      Except.ok dbUpdW := by decide

end Intelooper
